import Mathlib

/-! Vulkan2D presentation chain (`mt::SwapChain`).

A shallow embedding of `Sources/Graphics/Renderer/SwapChain.{hpp,cpp}`:

* the surface-configuration helpers (`ChooseSwapSurfaceFormat`,
  `ChooseSwapPresentMode`, `ChooseSwapExtent`) and the image-count
  computation of `CreateSwapChain`, as pure functions;
* the frame synchroniser (`CreateSyncObjects`, `AcquireNextImage`,
  `SubmitCommandBuffers`) as state-passing functions on the fields of the
  class that they read and write, each returning the device calls it
  issues in program order;
* a small model of the device side of a fence (signaled / unsignaled,
  work in flight), against which those device calls are run;
* construction (`Init` and its six steps, on the answers of the devices)
  and teardown (the destructor), each with the creation or destroy calls
  it issues in program order, and `compareSwapFormats`.

Vulkan handles are natural numbers with `VK_NULL_HANDLE = 0`; 32-bit
unsigned arithmetic is `Nat` arithmetic reduced modulo `2 ^ 32`; an
out-of-range `std::vector::operator[]` is `none`.
-/

namespace mt

/-! ## Vulkan constants and plain value types -/

/-- The null handle of every non-dispatchable Vulkan handle type. -/
def VK_NULL_HANDLE : Nat := 0

/-- The largest `uint32_t`, `std::numeric_limits<uint32_t>::max()`. -/
def UINT32_MAX : Nat := 2 ^ 32 - 1

/-- Status codes of the C API are the integers of the `VkResult` enum. -/
abbrev VkResult := Int

def VK_SUCCESS : VkResult := 0
def VK_NOT_READY : VkResult := 1
def VK_TIMEOUT : VkResult := 2
def VK_ERROR_DEVICE_LOST : VkResult := -4
def VK_ERROR_SURFACE_LOST_KHR : VkResult := -1000000000
def VK_SUBOPTIMAL_KHR : VkResult := 1000001003
def VK_ERROR_OUT_OF_DATE_KHR : VkResult := -1000001004

def VK_FORMAT_B8G8R8A8_UNORM : Nat := 44
def VK_FORMAT_B8G8R8A8_SRGB : Nat := 50
def VK_COLOR_SPACE_SRGB_NONLINEAR_KHR : Nat := 0

def VK_PRESENT_MODE_IMMEDIATE_KHR : Nat := 0
def VK_PRESENT_MODE_MAILBOX_KHR : Nat := 1
def VK_PRESENT_MODE_FIFO_KHR : Nat := 2
def VK_PRESENT_MODE_FIFO_RELAXED_KHR : Nat := 3

def VK_PIPELINE_STAGE_COLOR_ATTACHMENT_OUTPUT_BIT : Nat := 0x400

structure VkSurfaceFormatKHR where
  format : Nat
  colorSpace : Nat
  deriving DecidableEq, Repr

structure VkExtent2D where
  width : Nat
  height : Nat
  deriving DecidableEq, Repr

/-- The fields of `VkSurfaceCapabilitiesKHR` that the chain reads. -/
structure VkSurfaceCapabilitiesKHR where
  minImageCount : Nat
  maxImageCount : Nat
  currentExtent : VkExtent2D
  minImageExtent : VkExtent2D
  maxImageExtent : VkExtent2D
  deriving DecidableEq, Repr

/-! ## Surface configuration selector -/

/-- The test of the loop body of `ChooseSwapSurfaceFormat`. -/
def isPreferredFormat (availableFormat : VkSurfaceFormatKHR) : Bool :=
  availableFormat.format == VK_FORMAT_B8G8R8A8_SRGB &&
    availableFormat.colorSpace == VK_COLOR_SPACE_SRGB_NONLINEAR_KHR

/-- The range-for loop of `ChooseSwapSurfaceFormat`: the first entry that
passes the test, when the loop returns from inside. -/
def ChooseSwapSurfaceFormat.loop : List VkSurfaceFormatKHR → Option VkSurfaceFormatKHR
  | [] => none
  | availableFormat :: rest =>
      if isPreferredFormat availableFormat then some availableFormat
      else ChooseSwapSurfaceFormat.loop rest

/-- `SwapChain::ChooseSwapSurfaceFormat`. After the loop the code returns
`availableFormats[0]`, which is out of range on an empty vector: `none`. -/
def ChooseSwapSurfaceFormat (availableFormats : List VkSurfaceFormatKHR) :
    Option VkSurfaceFormatKHR :=
  match ChooseSwapSurfaceFormat.loop availableFormats with
  | some availableFormat => some availableFormat
  | none => availableFormats[0]?

/-- `SwapChain::ChooseSwapPresentMode` (the console output is left out;
the loop over the immediate mode is commented out in the source). -/
def ChooseSwapPresentMode : List Nat → Nat
  | [] => VK_PRESENT_MODE_FIFO_KHR
  | availablePresentMode :: rest =>
      if availablePresentMode = VK_PRESENT_MODE_MAILBOX_KHR then availablePresentMode
      else ChooseSwapPresentMode rest

/-- `SwapChain::ChooseSwapExtent`; `mWindowExtent` is the extent the
caller gave to the constructor. -/
def ChooseSwapExtent (mWindowExtent : VkExtent2D)
    (capabilities : VkSurfaceCapabilitiesKHR) : VkExtent2D :=
  if capabilities.currentExtent.width ≠ UINT32_MAX then
    capabilities.currentExtent
  else
    { width := max capabilities.minImageExtent.width
        (min capabilities.maxImageExtent.width mWindowExtent.width)
      height := max capabilities.minImageExtent.height
        (min capabilities.maxImageExtent.height mWindowExtent.height) }

/-- The value `CreateSwapChain` stores in `createInfo.minImageCount`
(lines 74-85): `minImageCount + 1` in `uint32_t`, replaced by
`maxImageCount` when that is non-zero and smaller. -/
def CreateSwapChain.imageCount (capabilities : VkSurfaceCapabilitiesKHR) : Nat :=
  let imageCount := (capabilities.minImageCount + 1) % 2 ^ 32
  if capabilities.maxImageCount > 0 ∧ imageCount > capabilities.maxImageCount then
    capabilities.maxImageCount
  else
    imageCount

/-- A capabilities value with the given image-count bounds and nothing
else of interest. -/
def capsWithCounts (minCount maxCount : Nat) : VkSurfaceCapabilitiesKHR :=
  { minImageCount := minCount
    maxImageCount := maxCount
    currentExtent := ⟨0, 0⟩
    minImageExtent := ⟨0, 0⟩
    maxImageExtent := ⟨0, 0⟩ }

/-! ## The chain object -/

/-- `SwapChain::FRAMES_IN_FLIGHT` as the header declares it. The functions
below take the constant as a parameter `framesInFlight`, so that they can
be studied for every value of it. -/
def FRAMES_IN_FLIGHT : Nat := 2

/-- The data members of `mt::SwapChain` (the two device references and the
previous-chain pointer apart). Vectors are lists of handles. -/
structure SwapChain where
  mWindowExtent : VkExtent2D
  mSwapChain : Nat
  mSwapChainImageFormat : Nat
  mSwapChainDepthFormat : Nat
  mSwapChainExtent : VkExtent2D
  mRenderPass : Nat
  mSwapChainFramebuffers : List Nat
  mDepthImages : List Nat
  mDepthImageMemorys : List Nat
  mDepthImageViews : List Nat
  mSwapChainImages : List Nat
  mSwapChainImageViews : List Nat
  mImageAvailableSemaphores : List Nat
  mRenderFinishedSemaphores : List Nat
  mInFlightFences : List Nat
  mImagesInFlight : List Nat
  mCurrentFrame : Nat
  deriving DecidableEq, Repr

/-- `SwapChain::GetImageCount`. -/
def SwapChain.GetImageCount (sc : SwapChain) : Nat :=
  sc.mSwapChainImages.length

/-- The object as its member initialisers leave it (empty vectors,
`mCurrentFrame = 0`), holding the images the display subsystem handed out. -/
def SwapChain.withImages (images : List Nat) : SwapChain :=
  { mWindowExtent := ⟨0, 0⟩
    mSwapChain := 0
    mSwapChainImageFormat := 0
    mSwapChainDepthFormat := 0
    mSwapChainExtent := ⟨0, 0⟩
    mRenderPass := 0
    mSwapChainFramebuffers := []
    mDepthImages := []
    mDepthImageMemorys := []
    mDepthImageViews := []
    mSwapChainImages := images
    mSwapChainImageViews := []
    mImageAvailableSemaphores := []
    mRenderFinishedSemaphores := []
    mInFlightFences := []
    mImagesInFlight := []
    mCurrentFrame := 0 }

/-- The effect of `std::vector::resize(n, value)`. -/
def vectorResize (xs : List Nat) (n value : Nat) : List Nat :=
  xs.take n ++ List.replicate (n - xs.length) value

/-- The handles the device returns for the sync objects of one frame slot
when all three creations of `CreateSyncObjects` succeed. -/
structure SyncHandles where
  imageAvailable : Nat → Nat
  renderFinished : Nat → Nat
  inFlight : Nat → Nat

/-- `SwapChain::CreateSyncObjects` when every creation succeeds: the three
per-slot vectors are resized to `framesInFlight` and every element is
written by the creation call of its slot; the image-in-flight table is
resized to the image count, new entries being `VK_NULL_HANDLE`. -/
def CreateSyncObjects (framesInFlight : Nat) (dev : SyncHandles) (sc : SwapChain) :
    SwapChain :=
  { sc with
    mImageAvailableSemaphores := (List.range framesInFlight).map dev.imageAvailable
    mRenderFinishedSemaphores := (List.range framesInFlight).map dev.renderFinished
    mInFlightFences := (List.range framesInFlight).map dev.inFlight
    mImagesInFlight := vectorResize sc.mImagesInFlight sc.GetImageCount VK_NULL_HANDLE }

/-! ## Acquire and submit -/

/-- The device entry points that `AcquireNextImage` and
`SubmitCommandBuffers` call, with the arguments the code passes. The image
index of `vkQueueSubmit` is the `*imageIndex` of the enclosing call (the
command buffer handed over was recorded for that image); `result` is what
the device answered. -/
inductive DeviceCall
  | vkWaitForFences (fence : Nat)
  | vkAcquireNextImageKHR (semaphore : Nat) (result : VkResult) (imageIndex : Nat)
  | vkResetFences (fence : Nat)
  | vkQueueSubmit (waitSemaphore waitDstStageMask signalSemaphore fence : Nat)
      (imageIndex : Nat) (result : VkResult)
  | vkQueuePresentKHR (waitSemaphore imageIndex : Nat) (result : VkResult)
  deriving DecidableEq, Repr

/-- What one call of a member function did: the device calls it issued in
program order, the object afterwards, and what it gave back. -/
structure Outcome (α : Type) where
  calls : List DeviceCall
  chain : SwapChain
  value : α

/-- `SwapChain::AcquireNextImage`. `devResult` and `devIndex` are the
answer of `vkAcquireNextImageKHR`; the value is the returned `VkResult`
and the content of `*imageIndex`. -/
def AcquireNextImage (sc : SwapChain) (devResult : VkResult) (devIndex : Nat) :
    Option (Outcome (VkResult × Nat)) := do
  let fence ← sc.mInFlightFences[sc.mCurrentFrame]?
  let semaphore ← sc.mImageAvailableSemaphores[sc.mCurrentFrame]?
  let result := devResult
  some
    { calls := [.vkWaitForFences fence, .vkAcquireNextImageKHR semaphore devResult devIndex]
      chain := sc
      value := (result, devIndex) }

/-- `SwapChain::SubmitCommandBuffers`. `submitResult` and `presentResult`
are the answers of `vkQueueSubmit` and `vkQueuePresentKHR`. The value is
`Except.error` with the message of the exception when the code throws, and
the returned `VkResult` otherwise; `chain` is the object at that point. -/
def SubmitCommandBuffers (framesInFlight : Nat) (sc : SwapChain) (imageIndex : Nat)
    (submitResult presentResult : VkResult) :
    Option (Outcome (Except String VkResult)) := do
  let recorded ← sc.mImagesInFlight[imageIndex]?
  let waited : List DeviceCall :=
    if recorded ≠ VK_NULL_HANDLE then [.vkWaitForFences recorded] else []
  let fence ← sc.mInFlightFences[sc.mCurrentFrame]?
  let mImagesInFlight := sc.mImagesInFlight.set imageIndex fence
  let waitSemaphore ← sc.mImageAvailableSemaphores[sc.mCurrentFrame]?
  let signalSemaphore ← sc.mRenderFinishedSemaphores[sc.mCurrentFrame]?
  let submitted : List DeviceCall :=
    waited ++ [.vkResetFences fence,
      .vkQueueSubmit waitSemaphore VK_PIPELINE_STAGE_COLOR_ATTACHMENT_OUTPUT_BIT
        signalSemaphore fence imageIndex submitResult]
  if submitResult ≠ VK_SUCCESS then
    some
      { calls := submitted
        chain := { sc with mImagesInFlight := mImagesInFlight }
        value := .error "failed to submit draw command buffer!" }
  else if framesInFlight = 0 then
    none
  else
    some
      { calls := submitted ++ [.vkQueuePresentKHR signalSemaphore imageIndex presentResult]
        chain := { sc with
          mImagesInFlight := mImagesInFlight
          mCurrentFrame := (sc.mCurrentFrame + 1) % framesInFlight }
        value := .ok presentResult }

/-- The statuses the frame loop treats as "go on": success. -/
def isOk (r : VkResult) : Prop := r = VK_SUCCESS

/-- The two reports of the display subsystem that ask for a rebuild of the
chain: suboptimal and out of date. -/
def isMustRebuild (r : VkResult) : Prop :=
  r = VK_SUBOPTIMAL_KHR ∨ r = VK_ERROR_OUT_OF_DATE_KHR

/-! ## Device side of the fences

Each fence is signaled or unsignaled: it is created signaled, a wait on it
returns only when it is signaled, a reset makes it unsignaled, and the
device signals it when the work submitted with it completes. Completion of
work in flight happens in any order, at any moment between two calls of
the chain. -/

/-- One batch of work handed to the graphics queue: the chain image it
renders to, the fence it was armed with, and its rank among all batches
handed over so far. -/
structure Work where
  imageIndex : Nat
  fence : Nat
  serial : Nat
  deriving DecidableEq, Repr

structure Device where
  signaled : List Nat
  inFlight : List Work
  submitted : Nat
  deriving DecidableEq, Repr

/-- The effect of one device call; `none` when the call cannot return (a
wait on a fence that is not signaled). -/
def Device.exec (d : Device) : DeviceCall → Option Device
  | .vkWaitForFences fence => if fence ∈ d.signaled then some d else none
  | .vkResetFences fence => some { d with signaled := d.signaled.filter (fun f => f ≠ fence) }
  | .vkQueueSubmit _ _ _ fence imageIndex result =>
      if result = VK_SUCCESS then
        some { d with
          inFlight := d.inFlight ++ [⟨imageIndex, fence, d.submitted⟩]
          submitted := d.submitted + 1 }
      else some d
  | .vkAcquireNextImageKHR _ _ _ => some d
  | .vkQueuePresentKHR _ _ _ => some d

/-- Device calls in sequence. -/
def Device.execAll (d : Device) : List DeviceCall → Option Device
  | [] => some d
  | c :: cs => (d.exec c).bind (fun d1 => Device.execAll d1 cs)

/-- The `k`-th batch in flight completes and its fence becomes signaled. -/
def Device.complete (d : Device) (k : Nat) : Device :=
  match d.inFlight[k]? with
  | none => d
  | some work =>
      { d with
        inFlight := d.inFlight.eraseIdx k
        signaled := work.fence :: d.signaled }

/-- The chain, the device, and every device call made so far. -/
structure World where
  chain : SwapChain
  device : Device
  log : List DeviceCall

/-- What can happen next: a call of `AcquireNextImage`, a call of
`SubmitCommandBuffers` (each with the answers of the device), or the
completion of a batch in flight. -/
inductive Action
  | acquire (devResult : VkResult) (devIndex : Nat)
  | submit (imageIndex : Nat) (submitResult presentResult : VkResult)
  | gpuComplete (k : Nat)
  deriving DecidableEq, Repr

/-- One action. `none` when the call can never come back in this state
(its wait is on a fence that is not signaled) or indexes a vector out of
range. A call that throws leaves the object as it was at the throw. -/
def step (framesInFlight : Nat) (w : World) : Action → Option World
  | .acquire devResult devIndex => do
      let out ← AcquireNextImage w.chain devResult devIndex
      let d ← w.device.execAll out.calls
      some { chain := out.chain, device := d, log := w.log ++ out.calls }
  | .submit imageIndex submitResult presentResult => do
      let out ← SubmitCommandBuffers framesInFlight w.chain imageIndex submitResult presentResult
      let d ← w.device.execAll out.calls
      some { chain := out.chain, device := d, log := w.log ++ out.calls }
  | .gpuComplete k => some { w with device := w.device.complete k }

/-- A sequence of actions. -/
def run (framesInFlight : Nat) : World → List Action → Option World
  | w, [] => some w
  | w, a :: rest => (step framesInFlight w a).bind (fun w1 => run framesInFlight w1 rest)

/-- A freshly built chain over the given images: sync objects created,
every fence signaled (`VK_FENCE_CREATE_SIGNALED_BIT`), nothing in flight. -/
def freshWorld (framesInFlight : Nat) (dev : SyncHandles) (images : List Nat) : World :=
  let sc := CreateSyncObjects framesInFlight dev (SwapChain.withImages images)
  { chain := sc
    device := { signaled := sc.mInFlightFences, inFlight := [], submitted := 0 }
    log := [] }

/-- Reading a log for one image index: the fence of the latest successful
queue submit for that index, as long as no later wait has returned on that
fence. -/
def awaitedFence.update (imageIndex : Nat) (prev : Option Nat) : DeviceCall → Option Nat
  | .vkQueueSubmit _ _ _ fence i result =>
      if i = imageIndex ∧ result = VK_SUCCESS then some fence else prev
  | .vkWaitForFences fence => if prev = some fence then none else prev
  | _ => prev

/-- The fence of the previous submission to `imageIndex` that has not been
observed signaled since, if there is one. -/
def awaitedFence (log : List DeviceCall) (imageIndex : Nat) : Option Nat :=
  log.foldl (awaitedFence.update imageIndex) none

/-- The number of `SubmitCommandBuffers` calls in a sequence whose queue
submit succeeds, that is, of calls that return. -/
def returnedSubmits : List Action → Nat
  | [] => 0
  | .submit _ submitResult _ :: rest =>
      (if submitResult = VK_SUCCESS then 1 else 0) + returnedSubmits rest
  | _ :: rest => returnedSubmits rest

/-- One frame of the frame loop: `AcquireNextImage`, then
`SubmitCommandBuffers` that returns; batches in flight may complete before
either call. -/
structure Frame where
  completedBeforeAcquire : List Nat
  acquireResult : VkResult
  acquireIndex : Nat
  completedBeforeSubmit : List Nat
  imageIndex : Nat
  presentResult : VkResult
  deriving DecidableEq, Repr

def Frame.actions (fr : Frame) : List Action :=
  fr.completedBeforeAcquire.map Action.gpuComplete ++
    [Action.acquire fr.acquireResult fr.acquireIndex] ++
    fr.completedBeforeSubmit.map Action.gpuComplete ++
    [Action.submit fr.imageIndex VK_SUCCESS fr.presentResult]

/-- The actions of a sequence of frames. -/
def frameLoop : List Frame → List Action
  | [] => []
  | fr :: rest => fr.actions ++ frameLoop rest

/-! ## Predicates on logs and worlds -/

/-- Whether a device call is a successful queue submit for the image. -/
def isSubmitTo (imageIndex : Nat) : DeviceCall → Prop
  | .vkQueueSubmit _ _ _ _ i result => i = imageIndex ∧ result = VK_SUCCESS
  | _ => False

/-- The image-in-flight table keeps, for every image whose previous
submission has not been waited for since, the fence of that submission;
and no in-flight fence is the null handle. -/
def TableTracks (w : World) : Prop :=
  (∀ f ∈ w.chain.mInFlightFences, f ≠ VK_NULL_HANDLE) ∧
  ∀ i f, awaitedFence w.log i = some f →
    w.chain.mImagesInFlight[i]? = some f ∧ f ≠ VK_NULL_HANDLE

/-- Frame-loop invariant, `n` frames having been submitted. -/
def FrameInv (framesInFlight n : Nat) (w : World) : Prop :=
  w.chain.mInFlightFences.length = framesInFlight ∧
  w.chain.mCurrentFrame = n % framesInFlight ∧
  w.device.submitted = n ∧
  (∀ wk ∈ w.device.inFlight, wk.fence ∉ w.device.signaled) ∧
  (w.device.inFlight.map Work.fence).Nodup ∧
  (∀ wk ∈ w.device.inFlight,
    wk.serial < n ∧ w.chain.mInFlightFences[wk.serial % framesInFlight]? = some wk.fence)

/-- The class invariant that the constructor establishes: one semaphore
pair and one fence per frame slot, one table entry per chain image, and a
frame slot in range. -/
def SwapChain.Built (framesInFlight : Nat) (sc : SwapChain) : Prop :=
  sc.mImageAvailableSemaphores.length = framesInFlight ∧
  sc.mRenderFinishedSemaphores.length = framesInFlight ∧
  sc.mInFlightFences.length = framesInFlight ∧
  sc.mImagesInFlight.length = sc.GetImageCount ∧
  sc.mCurrentFrame < framesInFlight

/-- Handles of a device that numbers its objects: image-available
semaphores from 100, render-finished semaphores from 200, fences from 1. -/
def sampleHandles : SyncHandles :=
  { imageAvailable := fun s => 100 + s
    renderFinished := fun s => 200 + s
    inFlight := fun s => s + 1 }

/-- A sample run on one image: a frame for image 0, the completion of its
batch, and the acquire of the next frame. -/
def sampleActions : List Action :=
  [Action.acquire VK_SUCCESS 0, Action.submit 0 VK_SUCCESS VK_SUCCESS,
   Action.gpuComplete 0, Action.acquire VK_SUCCESS 0]

/-- The world after `sampleActions` with two frame slots. -/
def sampleWorld : World :=
  (run 2 (freshWorld 2 sampleHandles [7]) sampleActions).getD (freshWorld 2 sampleHandles [7])

/-- The world after one more submit for image 0. -/
def sampleWorldNext : World :=
  (step 2 sampleWorld (Action.submit 0 VK_SUCCESS VK_SUCCESS)).getD sampleWorld

/-- Frame 0 of a sample frame loop on two images: image 0. -/
def sampleFrame0 : Frame :=
  { completedBeforeAcquire := [], acquireResult := VK_SUCCESS, acquireIndex := 0
    completedBeforeSubmit := [], imageIndex := 0, presentResult := VK_SUCCESS }

/-- Frame 1 of the sample frame loop: image 1, reported suboptimal. -/
def sampleFrame1 : Frame :=
  { completedBeforeAcquire := [], acquireResult := VK_SUCCESS, acquireIndex := 1
    completedBeforeSubmit := [], imageIndex := 1, presentResult := VK_SUBOPTIMAL_KHR }

def sampleLoopStart : World := freshWorld 2 sampleHandles [7, 8]

def sampleLoopAfter0 : World :=
  (run 2 sampleLoopStart sampleFrame0.actions).getD sampleLoopStart

def sampleLoopAfter1 : World :=
  (run 2 sampleLoopAfter0 (frameLoop [sampleFrame1])).getD sampleLoopStart

def sampleLoopAcquired : World :=
  (run 2 sampleLoopAfter1 ([0].map Action.gpuComplete ++ [Action.acquire VK_SUCCESS 0])).getD
    sampleLoopStart

/-- A built chain of two frame slots over three images, in frame slot 1,
whose table holds the fence of slot 0 for image 2. -/
def sampleChain : SwapChain :=
  { CreateSyncObjects 2 sampleHandles (SwapChain.withImages [7, 8, 9]) with
    mImagesInFlight := [0, 0, 1]
    mCurrentFrame := 1 }

/-- A capabilities value with the given extents and nothing else of
interest. -/
def capsWithExtents (current lo hi : VkExtent2D) : VkSurfaceCapabilitiesKHR :=
  { minImageCount := 2
    maxImageCount := 0
    currentExtent := current
    minImageExtent := lo
    maxImageExtent := hi }

/-- Every batch in flight is armed with the fence that the image-in-flight
table holds for its image. -/
def TableCovers (w : World) : Prop :=
  ∀ wk ∈ w.device.inFlight, w.chain.mImagesInFlight[wk.imageIndex]? = some wk.fence

/-- `SwapChain::compareSwapFormats`: `self` is the chain the member
function is called on, `swapChain` its argument. -/
def SwapChain.compareSwapFormats (self swapChain : SwapChain) : Bool :=
  swapChain.mSwapChainDepthFormat == self.mSwapChainDepthFormat &&
    swapChain.mSwapChainImageFormat == self.mSwapChainImageFormat

/-! ## Construction and teardown -/

def VK_FORMAT_D32_SFLOAT : Nat := 126
def VK_FORMAT_D24_UNORM_S8_UINT : Nat := 129
def VK_FORMAT_D32_SFLOAT_S8_UINT : Nat := 130
def VK_IMAGE_ASPECT_COLOR_BIT : Nat := 1
def VK_IMAGE_ASPECT_DEPTH_BIT : Nat := 2

/-- Why a member function did not come back: a `std::runtime_error` with
its message, or a vector indexed out of range. -/
inductive Abort
  | thrown (what : String)
  | outOfRange
  deriving DecidableEq, Repr

/-- The creation entry points that `Init` calls, with the arguments the
claims speak of and the handle the device wrote back. -/
inductive CreateCall
  | vkCreateSwapchainKHR (minImageCount imageFormat imageColorSpace : Nat)
      (imageExtent : VkExtent2D) (presentMode oldSwapchain swapchain : Nat)
  | vkCreateImageView (image format aspectMask imageView : Nat)
  | vkCreateRenderPass (colorFormat depthFormat renderPass : Nat)
  | CreateImageFromInfo (width height format image memory : Nat)
  | vkCreateFramebuffer (renderPass : Nat) (attachments : List Nat) (width height : Nat)
      (framebuffer : Nat)
  | vkCreateSemaphore (semaphore : Nat)
  | vkCreateFence (flags fence : Nat)
  deriving DecidableEq, Repr

/-- What the devices answer during construction. `formats`, `presentModes`
and `capabilities` are `GetSwapChainSupport()`; the `create...` fields are
the status and the handle of each creation call, by chain index or frame
slot where there are several. -/
structure DeviceAnswers where
  formats : List VkSurfaceFormatKHR
  presentModes : List Nat
  capabilities : VkSurfaceCapabilitiesKHR
  createSwapchain : VkResult × Nat
  swapchainImages : List Nat
  createImageView : Nat → VkResult × Nat
  /-- Modelled from the spec: `LogicalDevice::FindSupportedFormat` is not
  among the sources; it gives the first supported candidate and fails
  fatally, with a message of its own, when no listed format is supported. -/
  findSupportedFormat : List Nat → Except String Nat
  createRenderPass : VkResult × Nat
  /-- Modelled from the spec: `LogicalDevice::CreateImageFromInfo` is not
  among the sources; it gives the image and its memory and fails fatally,
  with a message of its own, when the allocation fails. -/
  createImageFromInfo : Nat → Except String (Nat × Nat)
  createDepthView : Nat → VkResult × Nat
  createFramebuffer : Nat → VkResult × Nat
  createSync : Nat → VkResult × VkResult × VkResult
  syncHandles : SyncHandles

/-- `SwapChain::FindDepthFormat`. -/
def FindDepthFormat (dev : DeviceAnswers) : Except String Nat :=
  dev.findSupportedFormat
    [VK_FORMAT_D32_SFLOAT, VK_FORMAT_D32_SFLOAT_S8_UINT, VK_FORMAT_D24_UNORM_S8_UINT]

/-- `SwapChain::CreateSwapChain` (queue-family sharing, transform and alpha
of the create info are left out). -/
def CreateSwapChain (dev : DeviceAnswers) (oldSwapchain : Nat) (sc : SwapChain) :
    Except Abort (SwapChain × List CreateCall) :=
  match ChooseSwapSurfaceFormat dev.formats with
  | none => .error .outOfRange
  | some surfaceFormat =>
    let presentMode := ChooseSwapPresentMode dev.presentModes
    let extent := ChooseSwapExtent sc.mWindowExtent dev.capabilities
    let imageCount := CreateSwapChain.imageCount dev.capabilities
    if dev.createSwapchain.1 ≠ VK_SUCCESS then
      .error (.thrown "failed to create swap chain!")
    else
      .ok ({ sc with
              mSwapChain := dev.createSwapchain.2
              mSwapChainImages := dev.swapchainImages
              mSwapChainImageFormat := surfaceFormat.format
              mSwapChainExtent := extent },
           [.vkCreateSwapchainKHR imageCount surfaceFormat.format surfaceFormat.colorSpace
              extent presentMode oldSwapchain dev.createSwapchain.2])

/-- The loop of `CreateImageViews` from index `i` on, over the images that
are left. -/
def CreateImageViews.loop (dev : DeviceAnswers) (format : Nat) :
    Nat → List Nat → Except Abort (List Nat × List CreateCall)
  | _, [] => .ok ([], [])
  | i, image :: rest =>
      if (dev.createImageView i).1 ≠ VK_SUCCESS then
        .error (.thrown "failed to create texture image view!")
      else
        match CreateImageViews.loop dev format (i + 1) rest with
        | .error e => .error e
        | .ok (views, calls) =>
            .ok ((dev.createImageView i).2 :: views,
              .vkCreateImageView image format VK_IMAGE_ASPECT_COLOR_BIT
                (dev.createImageView i).2 :: calls)

/-- `SwapChain::CreateImageViews`. -/
def CreateImageViews (dev : DeviceAnswers) (sc : SwapChain) :
    Except Abort (SwapChain × List CreateCall) :=
  match CreateImageViews.loop dev sc.mSwapChainImageFormat 0 sc.mSwapChainImages with
  | .error e => .error e
  | .ok (views, calls) => .ok ({ sc with mSwapChainImageViews := views }, calls)

/-- `SwapChain::CreateRenderPass`. -/
def CreateRenderPass (dev : DeviceAnswers) (sc : SwapChain) :
    Except Abort (SwapChain × List CreateCall) :=
  match FindDepthFormat dev with
  | .error what => .error (.thrown what)
  | .ok depthFormat =>
    if dev.createRenderPass.1 ≠ VK_SUCCESS then
      .error (.thrown "failed to create render pass!")
    else
      .ok ({ sc with mRenderPass := dev.createRenderPass.2 },
        [.vkCreateRenderPass sc.mSwapChainImageFormat depthFormat dev.createRenderPass.2])

/-- The loop of `CreateDepthResources` over the indices that are left:
images, memories, views, and the calls made. -/
def CreateDepthResources.loop (dev : DeviceAnswers) (extent : VkExtent2D) (depthFormat : Nat) :
    List Nat → Except Abort (List Nat × List Nat × List Nat × List CreateCall)
  | [] => .ok ([], [], [], [])
  | i :: rest =>
      match dev.createImageFromInfo i with
      | .error what => .error (.thrown what)
      | .ok (image, memory) =>
        if (dev.createDepthView i).1 ≠ VK_SUCCESS then
          .error (.thrown "failed to create texture image view!")
        else
          match CreateDepthResources.loop dev extent depthFormat rest with
          | .error e => .error e
          | .ok (images, memories, views, calls) =>
              .ok (image :: images, memory :: memories, (dev.createDepthView i).2 :: views,
                .CreateImageFromInfo extent.width extent.height depthFormat image memory ::
                .vkCreateImageView image depthFormat VK_IMAGE_ASPECT_DEPTH_BIT
                  (dev.createDepthView i).2 :: calls)

/-- `SwapChain::CreateDepthResources`: the three vectors are resized to the
image count and every element is written by the loop. -/
def CreateDepthResources (dev : DeviceAnswers) (sc : SwapChain) :
    Except Abort (SwapChain × List CreateCall) :=
  match FindDepthFormat dev with
  | .error what => .error (.thrown what)
  | .ok depthFormat =>
    match CreateDepthResources.loop dev sc.mSwapChainExtent depthFormat
        (List.range sc.GetImageCount) with
    | .error e => .error e
    | .ok (images, memories, views, calls) =>
        .ok ({ sc with
                mSwapChainDepthFormat := depthFormat
                mDepthImages := images
                mDepthImageMemorys := memories
                mDepthImageViews := views },
             calls)

/-- The loop of `CreateFramebuffers` over the indices that are left. -/
def CreateFramebuffers.loop (dev : DeviceAnswers) (sc : SwapChain) :
    List Nat → Except Abort (List Nat × List CreateCall)
  | [] => .ok ([], [])
  | i :: rest =>
      match sc.mSwapChainImageViews[i]?, sc.mDepthImageViews[i]? with
      | some imageView, some depthView =>
        if (dev.createFramebuffer i).1 ≠ VK_SUCCESS then
          .error (.thrown "failed to create framebuffer!")
        else
          match CreateFramebuffers.loop dev sc rest with
          | .error e => .error e
          | .ok (framebuffers, calls) =>
              .ok ((dev.createFramebuffer i).2 :: framebuffers,
                .vkCreateFramebuffer sc.mRenderPass [imageView, depthView]
                  sc.mSwapChainExtent.width sc.mSwapChainExtent.height
                  (dev.createFramebuffer i).2 :: calls)
      | _, _ => .error .outOfRange

/-- `SwapChain::CreateFramebuffers`. -/
def CreateFramebuffers (dev : DeviceAnswers) (sc : SwapChain) :
    Except Abort (SwapChain × List CreateCall) :=
  match CreateFramebuffers.loop dev sc (List.range sc.GetImageCount) with
  | .error e => .error e
  | .ok (framebuffers, calls) => .ok ({ sc with mSwapChainFramebuffers := framebuffers }, calls)

/-- Whether the three creations of every frame slot succeed in
`CreateSyncObjects`. -/
def CreateSyncObjects.succeeds (framesInFlight : Nat) (dev : DeviceAnswers) : Bool :=
  (List.range framesInFlight).all fun i =>
    decide ((dev.createSync i).1 = VK_SUCCESS) &&
    decide ((dev.createSync i).2.1 = VK_SUCCESS) &&
    decide ((dev.createSync i).2.2 = VK_SUCCESS)

def VK_FENCE_CREATE_SIGNALED_BIT : Nat := 1

/-- The creation calls of `CreateSyncObjects` when every creation
succeeds: for every frame slot in turn the image-available semaphore, the
render-finished semaphore and the in-flight fence, created signaled. -/
def CreateSyncObjects.calls (framesInFlight : Nat) (dev : SyncHandles) : List CreateCall :=
  ((List.range framesInFlight).map fun i =>
    [CreateCall.vkCreateSemaphore (dev.imageAvailable i),
     CreateCall.vkCreateSemaphore (dev.renderFinished i),
     CreateCall.vkCreateFence VK_FENCE_CREATE_SIGNALED_BIT (dev.inFlight i)]).flatten

/-- `SwapChain::Init`: the six steps in the order of the source, each on
the object the step before left, with the creation calls in order. -/
def Init (framesInFlight : Nat) (dev : DeviceAnswers) (oldSwapchain : Nat) (sc : SwapChain) :
    Except Abort (SwapChain × List CreateCall) :=
  match CreateSwapChain dev oldSwapchain sc with
  | .error e => .error e
  | .ok (sc1, c1) =>
  match CreateImageViews dev sc1 with
  | .error e => .error e
  | .ok (sc2, c2) =>
  match CreateRenderPass dev sc2 with
  | .error e => .error e
  | .ok (sc3, c3) =>
  match CreateDepthResources dev sc3 with
  | .error e => .error e
  | .ok (sc4, c4) =>
  match CreateFramebuffers dev sc4 with
  | .error e => .error e
  | .ok (sc5, c5) =>
    if CreateSyncObjects.succeeds framesInFlight dev then
      .ok (CreateSyncObjects framesInFlight dev.syncHandles sc5,
        c1 ++ c2 ++ c3 ++ c4 ++ c5 ++ CreateSyncObjects.calls framesInFlight dev.syncHandles)
    else
      .error (.thrown "failed to create synchronization objects for a frame!")

/-- The two constructors: the member initialisers, then `Init`.
`previous` is the `mSwapChain` handle of the previous chain, or
`VK_NULL_HANDLE` for the constructor without one. -/
def SwapChain.construct (framesInFlight : Nat) (dev : DeviceAnswers) (extent : VkExtent2D)
    (previous : Nat) : Except Abort (SwapChain × List CreateCall) :=
  Init framesInFlight dev previous { SwapChain.withImages [] with mWindowExtent := extent }

/-- `SwapChain::GetFrameBuffer`; the index is an `int`. -/
def SwapChain.GetFrameBuffer (sc : SwapChain) (index : Int) : Option Nat :=
  if index < 0 then none else sc.mSwapChainFramebuffers[index.toNat]?

/-- `SwapChain::GetImageView`; the index is an `int`. -/
def SwapChain.GetImageView (sc : SwapChain) (index : Int) : Option Nat :=
  if index < 0 then none else sc.mSwapChainImageViews[index.toNat]?

/-- The destroy and free calls of the destructor. -/
inductive DestroyCall
  | vkDestroyImageView (imageView : Nat)
  | vkDestroySwapchainKHR (swapchain : Nat)
  | vkDestroyImage (image : Nat)
  | vkFreeMemory (memory : Nat)
  | vkDestroyFramebuffer (framebuffer : Nat)
  | vkDestroyRenderPass (renderPass : Nat)
  | vkDestroySemaphore (semaphore : Nat)
  | vkDestroyFence (fence : Nat)
  deriving DecidableEq, Repr

/-- The depth loop of the destructor over the indices that are left. -/
def SwapChain.destructor.depthLoop (sc : SwapChain) : List Nat → Option (List DestroyCall)
  | [] => some []
  | i :: rest => do
      let view ← sc.mDepthImageViews[i]?
      let image ← sc.mDepthImages[i]?
      let memory ← sc.mDepthImageMemorys[i]?
      let calls ← SwapChain.destructor.depthLoop sc rest
      some (.vkDestroyImageView view :: .vkDestroyImage image :: .vkFreeMemory memory :: calls)

/-- The sync-object loop of the destructor over the slots that are left. -/
def SwapChain.destructor.syncLoop (sc : SwapChain) : List Nat → Option (List DestroyCall)
  | [] => some []
  | i :: rest => do
      let renderFinished ← sc.mRenderFinishedSemaphores[i]?
      let imageAvailable ← sc.mImageAvailableSemaphores[i]?
      let fence ← sc.mInFlightFences[i]?
      let calls ← SwapChain.destructor.syncLoop sc rest
      some (.vkDestroySemaphore renderFinished :: .vkDestroySemaphore imageAvailable ::
        .vkDestroyFence fence :: calls)

/-- `SwapChain::~SwapChain`: the destroy calls in program order. -/
def SwapChain.destructor (framesInFlight : Nat) (sc : SwapChain) : Option (List DestroyCall) := do
  let imageViews := sc.mSwapChainImageViews.map DestroyCall.vkDestroyImageView
  let swapchain :=
    if sc.mSwapChain ≠ VK_NULL_HANDLE then [DestroyCall.vkDestroySwapchainKHR sc.mSwapChain]
    else []
  let depth ← SwapChain.destructor.depthLoop sc (List.range sc.mDepthImages.length)
  let framebuffers := sc.mSwapChainFramebuffers.map DestroyCall.vkDestroyFramebuffer
  let sync ← SwapChain.destructor.syncLoop sc (List.range framesInFlight)
  some (imageViews ++ swapchain ++ depth ++ framebuffers ++
    [DestroyCall.vkDestroyRenderPass sc.mRenderPass] ++ sync)

/-- What construction establishes: one view, one depth image with memory
and view, one framebuffer and one table entry per chain image, and the
sync objects of every frame slot. -/
def SwapChain.Constructed (framesInFlight : Nat) (sc : SwapChain) : Prop :=
  sc.mSwapChainImageViews.length = sc.GetImageCount ∧
  sc.mDepthImages.length = sc.GetImageCount ∧
  sc.mDepthImageMemorys.length = sc.GetImageCount ∧
  sc.mDepthImageViews.length = sc.GetImageCount ∧
  sc.mSwapChainFramebuffers.length = sc.GetImageCount ∧
  sc.mImagesInFlight.length = sc.GetImageCount ∧
  sc.mImageAvailableSemaphores.length = framesInFlight ∧
  sc.mRenderFinishedSemaphores.length = framesInFlight ∧
  sc.mInFlightFences.length = framesInFlight

/-- Answers of a device that serves two chain images and numbers its
objects by kind. -/
def sampleDevice : DeviceAnswers :=
  { formats := [⟨VK_FORMAT_B8G8R8A8_UNORM, 0⟩, ⟨VK_FORMAT_B8G8R8A8_SRGB, 0⟩]
    presentModes := [VK_PRESENT_MODE_FIFO_KHR]
    capabilities := capsWithExtents ⟨800, 600⟩ ⟨1, 1⟩ ⟨4096, 4096⟩
    createSwapchain := (VK_SUCCESS, 5)
    swapchainImages := [7, 8]
    createImageView := fun i => (VK_SUCCESS, 10 + i)
    findSupportedFormat := fun candidates =>
      match candidates with
      | [] => .error "failed to find supported format!"
      | format :: _ => .ok format
    createRenderPass := (VK_SUCCESS, 40)
    createImageFromInfo := fun i => .ok (50 + i, 60 + i)
    createDepthView := fun i => (VK_SUCCESS, 20 + i)
    createFramebuffer := fun i => (VK_SUCCESS, 30 + i)
    createSync := fun _ => (VK_SUCCESS, VK_SUCCESS, VK_SUCCESS)
    syncHandles := sampleHandles }

/-- The chain the sample device builds, with the creation calls. -/
def sampleConstructed : SwapChain × List CreateCall :=
  match SwapChain.construct 2 sampleDevice ⟨800, 600⟩ VK_NULL_HANDLE with
  | .ok r => r
  | .error _ => (SwapChain.withImages [], [])

/-- Reading a log for one image index: the fence of the latest successful
queue submit for that index. -/
def lastSubmitFence.update (imageIndex : Nat) (prev : Option Nat) : DeviceCall → Option Nat
  | .vkQueueSubmit _ _ _ fence i result =>
      if i = imageIndex ∧ result = VK_SUCCESS then some fence else prev
  | _ => prev

theorem SubmitCommandBuffers_some {framesInFlight : Nat} {sc : SwapChain} {imageIndex : Nat}
    {submitResult presentResult : VkResult} {out : Outcome (Except String VkResult)}
    (h : SubmitCommandBuffers framesInFlight sc imageIndex submitResult presentResult = some out) :
    ∃ recorded fence waitSemaphore signalSemaphore,
      sc.mImagesInFlight[imageIndex]? = some recorded ∧
      sc.mInFlightFences[sc.mCurrentFrame]? = some fence ∧
      sc.mImageAvailableSemaphores[sc.mCurrentFrame]? = some waitSemaphore ∧
      sc.mRenderFinishedSemaphores[sc.mCurrentFrame]? = some signalSemaphore ∧
      out.calls = (if recorded ≠ VK_NULL_HANDLE then [DeviceCall.vkWaitForFences recorded] else []) ++
        [DeviceCall.vkResetFences fence,
         DeviceCall.vkQueueSubmit waitSemaphore VK_PIPELINE_STAGE_COLOR_ATTACHMENT_OUTPUT_BIT
           signalSemaphore fence imageIndex submitResult] ++
        (if submitResult = VK_SUCCESS then
          [DeviceCall.vkQueuePresentKHR signalSemaphore imageIndex presentResult] else []) ∧
      out.chain = { sc with
        mImagesInFlight := sc.mImagesInFlight.set imageIndex fence
        mCurrentFrame := if submitResult = VK_SUCCESS then
          (sc.mCurrentFrame + 1) % framesInFlight else sc.mCurrentFrame } ∧
      out.value = (if submitResult = VK_SUCCESS then Except.ok presentResult
        else Except.error "failed to submit draw command buffer!") ∧
      (submitResult = VK_SUCCESS → framesInFlight ≠ 0) := by
  unfold SubmitCommandBuffers at h
  cases h1 : sc.mImagesInFlight[imageIndex]? with
  | none => simp [h1] at h
  | some recorded =>
    cases h2 : sc.mInFlightFences[sc.mCurrentFrame]? with
    | none => simp [h1, h2] at h
    | some fence =>
      cases h3 : sc.mImageAvailableSemaphores[sc.mCurrentFrame]? with
      | none => simp [h1, h2, h3] at h
      | some waitSemaphore =>
        cases h4 : sc.mRenderFinishedSemaphores[sc.mCurrentFrame]? with
        | none => simp [h1, h2, h3, h4] at h
        | some signalSemaphore =>
          refine ⟨recorded, fence, waitSemaphore, signalSemaphore, rfl, rfl, rfl, rfl, ?_⟩
          simp only [h1, h2, h3, h4, Option.bind_eq_bind, Option.some_bind] at h
          by_cases hs : submitResult = VK_SUCCESS
          · by_cases hf : framesInFlight = 0
            · simp [hs, hf] at h
            · simp [hs, hf] at h
              subst h
              simp [hs, hf]
          · simp [hs] at h
            subst h
            simp [hs]

theorem AcquireNextImage_some {sc : SwapChain} {devResult : VkResult} {devIndex : Nat}
    {out : Outcome (VkResult × Nat)}
    (h : AcquireNextImage sc devResult devIndex = some out) :
    ∃ fence semaphore,
      sc.mInFlightFences[sc.mCurrentFrame]? = some fence ∧
      sc.mImageAvailableSemaphores[sc.mCurrentFrame]? = some semaphore ∧
      out.calls = [DeviceCall.vkWaitForFences fence,
        DeviceCall.vkAcquireNextImageKHR semaphore devResult devIndex] ∧
      out.chain = sc ∧ out.value = (devResult, devIndex) := by
  unfold AcquireNextImage at h
  cases h1 : sc.mInFlightFences[sc.mCurrentFrame]? with
  | none => simp [h1] at h
  | some fence =>
    cases h2 : sc.mImageAvailableSemaphores[sc.mCurrentFrame]? with
    | none => simp [h1, h2] at h
    | some semaphore =>
      simp only [h1, h2, Option.bind_eq_bind, Option.some_bind, Option.some.injEq] at h
      subst h
      exact ⟨fence, semaphore, rfl, rfl, rfl, rfl, rfl⟩

theorem run_invariant {framesInFlight : Nat} (P : World → Prop)
    (hstep : ∀ w a w1, P w → step framesInFlight w a = some w1 → P w1) :
    ∀ (actions : List Action) (w w1 : World),
      P w → run framesInFlight w actions = some w1 → P w1 := by
  intro actions
  induction actions with
  | nil =>
    intro w w1 hP h
    simp [run] at h
    subst h
    exact hP
  | cons a rest ih =>
    intro w w1 hP h
    simp only [run] at h
    cases hs : step framesInFlight w a with
    | none => simp [hs] at h
    | some w2 =>
      simp only [hs, Option.some_bind] at h
      exact ih w2 w1 (hstep w a w2 hP hs) h

theorem run_append {framesInFlight : Nat} (xs ys : List Action) (w : World) :
    run framesInFlight w (xs ++ ys) =
      (run framesInFlight w xs).bind (fun w1 => run framesInFlight w1 ys) := by
  induction xs generalizing w with
  | nil => simp [run]
  | cons a rest ih =>
    simp only [List.cons_append, run]
    cases step framesInFlight w a with
    | none => simp
    | some w2 => simp [ih]

theorem awaitedFence_append (log calls : List DeviceCall) (i : Nat) :
    awaitedFence (log ++ calls) i = calls.foldl (awaitedFence.update i) (awaitedFence log i) := by
  simp [awaitedFence, List.foldl_append]

theorem awaited_fold_none (i : Nat) (b : List DeviceCall)
    (hb : ∀ c ∈ b, ¬ isSubmitTo i c) :
    b.foldl (awaitedFence.update i) none = none := by
  induction b with
  | nil => rfl
  | cons c rest ih =>
    have hc : ¬ isSubmitTo i c := hb c (List.mem_cons_self _ _)
    have hr : ∀ c ∈ rest, ¬ isSubmitTo i c := fun c1 h1 => hb c1 (List.mem_cons_of_mem _ h1)
    have : awaitedFence.update i none c = none := by
      cases c <;> simp_all [awaitedFence.update, isSubmitTo]
    simp [List.foldl_cons, this, ih hr]

theorem awaited_fold_some (i f : Nat) (b : List DeviceCall)
    (hb : ∀ c ∈ b, ¬ isSubmitTo i c)
    (hw : DeviceCall.vkWaitForFences f ∉ b) :
    b.foldl (awaitedFence.update i) (some f) = some f := by
  induction b with
  | nil => rfl
  | cons c rest ih =>
    have hc : ¬ isSubmitTo i c := hb c (List.mem_cons_self _ _)
    have hr : ∀ c ∈ rest, ¬ isSubmitTo i c := fun c1 h1 => hb c1 (List.mem_cons_of_mem _ h1)
    have hne : c ≠ DeviceCall.vkWaitForFences f := fun e => hw (e ▸ List.mem_cons_self _ _)
    have hw1 : DeviceCall.vkWaitForFences f ∉ rest := fun h1 => hw (List.mem_cons_of_mem _ h1)
    have : awaitedFence.update i (some f) c = some f := by
      cases c <;> simp_all [awaitedFence.update, isSubmitTo]
    simp [List.foldl_cons, this, ih hr hw1]

/-- The latest successful submission to an image whose fence no later wait
of the log names is the one `awaitedFence` reports. -/
theorem awaitedFence_of_split (i f a1 a2 a3 : Nat) (a b : List DeviceCall)
    (hb : ∀ c ∈ b, ¬ isSubmitTo i c)
    (hw : DeviceCall.vkWaitForFences f ∉ b) :
    awaitedFence (a ++ DeviceCall.vkQueueSubmit a1 a2 a3 f i VK_SUCCESS :: b) i = some f := by
  rw [awaitedFence_append]
  simp only [List.foldl_cons, awaitedFence.update, and_self, if_true]
  exact awaited_fold_some i f b hb hw

theorem execAll_wait_cons {d d1 : Device} {f : Nat} {rest : List DeviceCall}
    (h : d.execAll (DeviceCall.vkWaitForFences f :: rest) = some d1) : f ∈ d.signaled := by
  simp only [Device.execAll, Device.exec] at h
  by_cases hf : f ∈ d.signaled
  · exact hf
  · simp [hf] at h

theorem TableTracks_step {framesInFlight : Nat} (w : World) (a : Action) (w1 : World)
    (hP : TableTracks w) (h : step framesInFlight w a = some w1) : TableTracks w1 := by
  obtain ⟨hnull, htab⟩ := hP
  cases a with
  | gpuComplete k =>
    simp only [step, Option.some.injEq] at h
    subst h
    exact ⟨hnull, htab⟩
  | acquire devResult devIndex =>
    simp only [step, Option.bind_eq_bind, Option.bind_eq_some] at h
    obtain ⟨out, hout, d, _, hw⟩ := h
    simp only [Option.some.injEq] at hw
    obtain ⟨fence, semaphore, _, _, hcalls, hchain, _⟩ := AcquireNextImage_some hout
    subst hw
    refine ⟨by simpa [hchain] using hnull, ?_⟩
    intro i f hf
    simp only [hchain]
    apply htab i f
    rw [awaitedFence_append, hcalls] at hf
    simp only [List.foldl_cons, List.foldl_nil, awaitedFence.update] at hf
    by_cases hc : awaitedFence w.log i = some fence
    · simp [hc] at hf
    · simpa [hc] using hf
  | submit imageIndex submitResult presentResult =>
    simp only [step, Option.bind_eq_bind, Option.bind_eq_some] at h
    obtain ⟨out, hout, d, _, hw⟩ := h
    simp only [Option.some.injEq] at hw
    obtain ⟨recorded, fence, ws, ss, hrec, hfence, _, _, hcalls, hchain, _, _⟩ :=
      SubmitCommandBuffers_some hout
    subst hw
    have hfnull : fence ≠ VK_NULL_HANDLE := hnull fence (List.getElem?_mem hfence)
    have hlt : imageIndex < w.chain.mImagesInFlight.length := by
      by_contra hge
      rw [List.getElem?_eq_none (Nat.le_of_not_lt hge)] at hrec
      exact Option.noConfusion hrec
    refine ⟨by simpa [hchain] using hnull, ?_⟩
    intro i f hf
    simp only [hchain]
    rw [awaitedFence_append, hcalls] at hf
    by_cases hi : imageIndex = i
    · subst hi
      by_cases hs : submitResult = VK_SUCCESS
      · simp [hs, List.foldl_append, awaitedFence.update] at hf
        subst hf
        simp [List.getElem?_set_self, hlt, hfnull]
      · -- the throwing call has waited for the fence the table held
        exfalso
        cases hprev : awaitedFence w.log imageIndex with
        | none =>
          by_cases hr : recorded = VK_NULL_HANDLE <;>
            simp [hs, hr, hprev, List.foldl_append, awaitedFence.update] at hf
        | some g =>
          obtain ⟨hg, hr⟩ := htab imageIndex g hprev
          rw [hrec] at hg
          simp only [Option.some.injEq] at hg
          subst hg
          simp [hs, hr, hprev, List.foldl_append, awaitedFence.update] at hf
    · have hset : (w.chain.mImagesInFlight.set imageIndex fence)[i]? =
          w.chain.mImagesInFlight[i]? := by
        simp [List.getElem?_set_ne hi]
      rw [hset]
      apply htab i f
      by_cases hr : recorded = VK_NULL_HANDLE
      · by_cases hs : submitResult = VK_SUCCESS <;>
          simpa [hs, hr, hi, List.foldl_append, awaitedFence.update] using hf
      · by_cases hc : awaitedFence w.log i = some recorded
        · by_cases hs : submitResult = VK_SUCCESS <;>
            simp [hs, hr, hi, hc, List.foldl_append, awaitedFence.update] at hf
        · by_cases hs : submitResult = VK_SUCCESS <;>
            simpa [hs, hr, hi, hc, List.foldl_append, awaitedFence.update] using hf

theorem TableTracks_fresh (framesInFlight : Nat) (dev : SyncHandles) (images : List Nat)
    (hdev : ∀ s, s < framesInFlight → dev.inFlight s ≠ VK_NULL_HANDLE) :
    TableTracks (freshWorld framesInFlight dev images) := by
  constructor
  · intro f hf
    simp only [freshWorld, CreateSyncObjects, List.mem_map, List.mem_range] at hf
    obtain ⟨s, hs, rfl⟩ := hf
    exact hdev s hs
  · intro i f hf
    simp [freshWorld, awaitedFence] at hf

/-- A property of the call log alone, for every run, throwing submits and
submits without an acquire included: on a freshly built chain with fence
handles that are not null, between the previous successful queue submit
for image index i and the next one there is a wait on the fence of the
previous one, and a wait of the call returns only on a signaled fence.
It says nothing of the batch that fence was armed with. -/
theorem submit_waits_for_prior_fence_of_image
    (framesInFlight : Nat) (dev : SyncHandles) (images : List Nat)
    (hdev : ∀ s, s < framesInFlight → dev.inFlight s ≠ VK_NULL_HANDLE)
    (actions : List Action) (w w1 : World)
    (hrun : run framesInFlight (freshWorld framesInFlight dev images) actions = some w)
    (imageIndex : Nat) (presentResult : VkResult)
    (hstep : step framesInFlight w (Action.submit imageIndex VK_SUCCESS presentResult) = some w1) :
    ∃ pre post waitSemaphore signalSemaphore fence,
      w1.log = w.log ++ pre ++
        DeviceCall.vkQueueSubmit waitSemaphore VK_PIPELINE_STAGE_COLOR_ATTACHMENT_OUTPUT_BIT
          signalSemaphore fence imageIndex VK_SUCCESS :: post ∧
      (∀ c ∈ pre, ¬ isSubmitTo imageIndex c) ∧
      (∀ f, DeviceCall.vkWaitForFences f ∈ pre → f ∈ w.device.signaled) ∧
      ∀ (a b : List DeviceCall) (a1 a2 a3 f : Nat),
        w.log = a ++ DeviceCall.vkQueueSubmit a1 a2 a3 f imageIndex VK_SUCCESS :: b →
        (∀ c ∈ b, ¬ isSubmitTo imageIndex c) →
        DeviceCall.vkWaitForFences f ∈ b ++ pre := by
  have hinv : TableTracks w :=
    run_invariant TableTracks TableTracks_step actions _ w
      (TableTracks_fresh framesInFlight dev images hdev) hrun
  obtain ⟨_, htab⟩ := hinv
  simp only [step, Option.bind_eq_bind, Option.bind_eq_some] at hstep
  obtain ⟨out, hout, d, hexec, hw⟩ := hstep
  simp only [Option.some.injEq] at hw
  obtain ⟨recorded, fence, ws, ss, hrec, _, _, _, hcalls, _, _, _⟩ :=
    SubmitCommandBuffers_some hout
  subst hw
  refine ⟨(if recorded ≠ VK_NULL_HANDLE then [DeviceCall.vkWaitForFences recorded] else []) ++
      [DeviceCall.vkResetFences fence],
    [DeviceCall.vkQueuePresentKHR ss imageIndex presentResult], ws, ss, fence, ?_, ?_, ?_, ?_⟩
  · simp [hcalls]
  · intro c hc
    by_cases hr : recorded = VK_NULL_HANDLE
    · simp [hr] at hc
      subst hc
      simp [isSubmitTo]
    · simp [hr] at hc
      rcases hc with rfl | rfl <;> simp [isSubmitTo]
  · intro f hf
    by_cases hr : recorded = VK_NULL_HANDLE
    · simp [hr] at hf
    · simp [hr] at hf
      subst hf
      rw [hcalls] at hexec
      simp only [hr, ne_eq, not_false_eq_true, if_true, List.cons_append, List.nil_append,
        List.singleton_append] at hexec
      exact execAll_wait_cons hexec
  · intro a b a1 a2 a3 f hlog hb
    by_cases hwb : DeviceCall.vkWaitForFences f ∈ b
    · exact List.mem_append_left _ hwb
    · have haw : awaitedFence w.log imageIndex = some f := by
        rw [hlog]
        exact awaitedFence_of_split imageIndex f a1 a2 a3 a b hb hwb
      obtain ⟨hf, hnull⟩ := htab imageIndex f haw
      rw [hrec] at hf
      simp only [Option.some.injEq] at hf
      subst hf
      simp [hnull]

theorem execAll_submit_ok {d d1 : Device} {recorded fence ws st ss i : Nat} {pres : VkResult}
    (h : d.execAll ((if recorded ≠ VK_NULL_HANDLE then [DeviceCall.vkWaitForFences recorded]
        else []) ++ [DeviceCall.vkResetFences fence,
          DeviceCall.vkQueueSubmit ws st ss fence i VK_SUCCESS] ++
        [DeviceCall.vkQueuePresentKHR ss i pres]) = some d1) :
    d1 = { signaled := d.signaled.filter (fun f => f ≠ fence)
           inFlight := d.inFlight ++ [⟨i, fence, d.submitted⟩]
           submitted := d.submitted + 1 } := by
  by_cases hr : recorded = VK_NULL_HANDLE
  · simp [hr, Device.execAll, Device.exec] at h
    subst h
    simp
  · by_cases hm : recorded ∈ d.signaled
    · simp [hr, hm, Device.execAll, Device.exec] at h
      subst h
      simp
    · simp [hr, hm, Device.execAll, Device.exec] at h

theorem execAll_acquire {d d1 : Device} {fence sem idx : Nat} {r : VkResult}
    (h : d.execAll [DeviceCall.vkWaitForFences fence,
      DeviceCall.vkAcquireNextImageKHR sem r idx] = some d1) :
    d1 = d ∧ fence ∈ d.signaled := by
  by_cases hm : fence ∈ d.signaled
  · simp [hm, Device.execAll, Device.exec] at h
    exact ⟨h.symm, hm⟩
  · simp [hm, Device.execAll, Device.exec] at h

theorem nodup_map_eraseIdx {α β : Type} (f : α → β) (l : List α) (k : Nat) (a : α)
    (hk : l[k]? = some a) (hn : (l.map f).Nodup) : ∀ x ∈ l.eraseIdx k, f x ≠ f a := by
  induction l generalizing k with
  | nil => simp at hk
  | cons b t ih =>
    simp only [List.map_cons, List.nodup_cons, List.mem_map, not_exists, not_and] at hn
    cases k with
    | zero =>
      simp only [List.getElem?_cons_zero, Option.some.injEq] at hk
      subst hk
      intro x hx
      simp only [List.eraseIdx_cons_zero] at hx
      exact hn.1 x hx
    | succ j =>
      simp only [List.getElem?_cons_succ] at hk
      intro x hx
      simp only [List.eraseIdx_cons_succ, List.mem_cons] at hx
      rcases hx with rfl | hx
      · exact fun e => hn.1 a (List.getElem?_mem hk) e.symm
      · exact ih j hk hn.2 x hx

theorem complete_signaled_mono (d : Device) (k f : Nat) (h : f ∈ d.signaled) :
    f ∈ (d.complete k).signaled := by
  unfold Device.complete
  cases d.inFlight[k]? with
  | none => exact h
  | some wk => exact List.mem_cons_of_mem _ h

theorem FrameInv_complete {framesInFlight n : Nat} {w : World} (k : Nat)
    (h : FrameInv framesInFlight n w) :
    FrameInv framesInFlight n { w with device := w.device.complete k } := by
  obtain ⟨h1, h2, h3, h4, h5, h6⟩ := h
  unfold Device.complete
  cases hk : w.device.inFlight[k]? with
  | none => exact ⟨h1, h2, h3, h4, h5, h6⟩
  | some wk =>
    have hsub : ∀ x ∈ w.device.inFlight.eraseIdx k, x ∈ w.device.inFlight :=
      fun x hx => (List.eraseIdx_sublist _ _).subset hx
    have hklt : k < w.device.inFlight.length := by
      by_contra hge
      rw [List.getElem?_eq_none (Nat.le_of_not_lt hge)] at hk
      exact Option.noConfusion hk
    refine ⟨h1, h2, h3, ?_, ?_, ?_⟩
    · intro x hx hmem
      simp only [List.mem_cons] at hmem
      rcases hmem with heq | hmem
      · -- x is another batch with the fence of the completed one
        exact nodup_map_eraseIdx Work.fence _ k wk hk h5 x hx heq
      · exact h4 x (hsub x hx) hmem
    · exact h5.sublist ((List.eraseIdx_sublist _ _).map _)
    · intro x hx
      exact h6 x (hsub x hx)

theorem FrameInv_acquire {framesInFlight n : Nat} {w w1 : World} {r : VkResult} {idx : Nat}
    (h : FrameInv framesInFlight n w)
    (hs : step framesInFlight w (Action.acquire r idx) = some w1) :
    FrameInv framesInFlight n w1 ∧ w1.chain = w.chain ∧ w1.device = w.device ∧
    ∃ fence sem, w.chain.mInFlightFences[w.chain.mCurrentFrame]? = some fence ∧
      fence ∈ w.device.signaled ∧
      w1.log = w.log ++ [DeviceCall.vkWaitForFences fence,
        DeviceCall.vkAcquireNextImageKHR sem r idx] := by
  simp only [step, Option.bind_eq_bind, Option.bind_eq_some] at hs
  obtain ⟨out, hout, d, hexec, hw⟩ := hs
  simp only [Option.some.injEq] at hw
  obtain ⟨fence, sem, hfence, _, hcalls, hchain, _⟩ := AcquireNextImage_some hout
  rw [hcalls] at hexec
  obtain ⟨hd, hsig⟩ := execAll_acquire hexec
  subst hw
  subst hd
  refine ⟨?_, hchain, rfl, fence, sem, hfence, hsig, by simp [hcalls]⟩
  simpa [FrameInv, hchain] using h

theorem run_completions {framesInFlight n : Nat} (ks : List Nat) :
    ∀ (w w1 : World), run framesInFlight w (ks.map Action.gpuComplete) = some w1 →
      w1.chain = w.chain ∧ w1.log = w.log ∧
      (FrameInv framesInFlight n w → FrameInv framesInFlight n w1) ∧
      (∀ f ∈ w.device.signaled, f ∈ w1.device.signaled) := by
  induction ks with
  | nil =>
    intro w w1 h
    simp [run] at h
    subst h
    exact ⟨rfl, rfl, id, fun _ hf => hf⟩
  | cons k rest ih =>
    intro w w1 h
    simp only [List.map_cons, run, step, Option.some_bind] at h
    obtain ⟨hc, hl, hinv, hsig⟩ := ih _ w1 h
    exact ⟨hc, hl, fun hw => hinv (FrameInv_complete k hw),
      fun f hf => hsig f (complete_signaled_mono _ k f hf)⟩

theorem FrameInv_submit {framesInFlight n : Nat} {w w1 : World} {i : Nat} {pres : VkResult}
    (h : FrameInv framesInFlight n w)
    (hsig : ∀ fence, w.chain.mInFlightFences[w.chain.mCurrentFrame]? = some fence →
      fence ∈ w.device.signaled)
    (hs : step framesInFlight w (Action.submit i VK_SUCCESS pres) = some w1) :
    FrameInv framesInFlight (n + 1) w1 ∧
    w1.chain.mInFlightFences = w.chain.mInFlightFences ∧
    ∃ fence pre ws ss, w.chain.mInFlightFences[n % framesInFlight]? = some fence ∧
      w1.log = w.log ++ pre ++ [DeviceCall.vkResetFences fence,
        DeviceCall.vkQueueSubmit ws VK_PIPELINE_STAGE_COLOR_ATTACHMENT_OUTPUT_BIT ss fence i
          VK_SUCCESS, DeviceCall.vkQueuePresentKHR ss i pres] ∧
      w1.device.inFlight = w.device.inFlight ++ [⟨i, fence, n⟩] ∧
      fence ∉ w1.device.signaled := by
  obtain ⟨h1, h2, h3, h4, h5, h6⟩ := h
  simp only [step, Option.bind_eq_bind, Option.bind_eq_some] at hs
  obtain ⟨out, hout, d, hexec, hw⟩ := hs
  simp only [Option.some.injEq] at hw
  obtain ⟨recorded, fence, ws, ss, _, hfence, _, _, hcalls, hchain, _, hne⟩ :=
    SubmitCommandBuffers_some hout
  rw [hcalls] at hexec
  simp only [if_true] at hexec
  have hd := execAll_submit_ok hexec
  have hfs : fence ∈ w.device.signaled := hsig fence hfence
  have hfresh : ∀ wk ∈ w.device.inFlight, wk.fence ≠ fence :=
    fun wk hwk e => h4 wk hwk (e ▸ hfs)
  subst hw
  subst hd
  refine ⟨?_, by simp [hchain], fence,
    (if recorded ≠ VK_NULL_HANDLE then [DeviceCall.vkWaitForFences recorded] else []), ws, ss,
    h2 ▸ hfence, by simp [hcalls], by simp [h3], by simp⟩
  unfold FrameInv
  simp only [hchain, if_true]
  refine ⟨h1, ?_, by simp [h3], ?_, ?_, ?_⟩
  · rw [h2]; simp
  · intro wk hwk
    simp only [List.mem_append, List.mem_singleton] at hwk
    rcases hwk with hwk | rfl
    · intro hmem
      exact h4 wk hwk (List.mem_filter.mp hmem).1
    · simp
  · simp only [List.map_append, List.map_cons, List.map_nil]
    refine List.Nodup.append h5 (List.nodup_singleton _) ?_
    intro f hf1 hf2
    simp only [List.mem_singleton] at hf2
    simp only [List.mem_map] at hf1
    obtain ⟨wk, hwk, rfl⟩ := hf1
    exact hfresh wk hwk hf2
  · intro wk hwk
    simp only [List.mem_append, List.mem_singleton] at hwk
    rcases hwk with hwk | rfl
    · exact ⟨Nat.lt_succ_of_lt (h6 wk hwk).1, (h6 wk hwk).2⟩
    · exact ⟨by simp [h3], by simpa [h3, ← h2] using hfence⟩

theorem run_bind_some {framesInFlight : Nat} {xs ys : List Action} {w w2 : World}
    (h : run framesInFlight w (xs ++ ys) = some w2) :
    ∃ w1, run framesInFlight w xs = some w1 ∧ run framesInFlight w1 ys = some w2 := by
  rw [run_append] at h
  cases h1 : run framesInFlight w xs with
  | none => simp [h1] at h
  | some w1 => exact ⟨w1, rfl, by simpa [h1] using h⟩

theorem run_single {framesInFlight : Nat} {a : Action} {w w1 : World}
    (h : run framesInFlight w [a] = some w1) : step framesInFlight w a = some w1 := by
  simp only [run] at h
  cases hs : step framesInFlight w a with
  | none => simp [hs] at h
  | some w2 => simpa [hs] using h

/-- One whole frame keeps the frame-loop invariant and arms the fence of
its slot. -/
theorem FrameInv_frame {framesInFlight n : Nat} {w w1 : World} (fr : Frame)
    (h : FrameInv framesInFlight n w)
    (hr : run framesInFlight w fr.actions = some w1) :
    FrameInv framesInFlight (n + 1) w1 ∧
    w1.chain.mInFlightFences = w.chain.mInFlightFences ∧
    ∃ fence l ws ss, w.chain.mInFlightFences[n % framesInFlight]? = some fence ∧
      w1.log = l ++ [DeviceCall.vkResetFences fence,
        DeviceCall.vkQueueSubmit ws VK_PIPELINE_STAGE_COLOR_ATTACHMENT_OUTPUT_BIT ss fence
          fr.imageIndex VK_SUCCESS,
        DeviceCall.vkQueuePresentKHR ss fr.imageIndex fr.presentResult] ∧
      (⟨fr.imageIndex, fence, n⟩ : Work) ∈ w1.device.inFlight ∧
      fence ∉ w1.device.signaled := by
  unfold Frame.actions at hr
  obtain ⟨wc, hr3, hsub⟩ := run_bind_some hr
  obtain ⟨wb, hr2, hg2⟩ := run_bind_some hr3
  obtain ⟨wa, hg1, hacq⟩ := run_bind_some hr2
  obtain ⟨hca, _, hinva, _⟩ := run_completions (n := n) _ _ _ hg1
  obtain ⟨hinvb, hcb, hdb, fence, sem, hfence, hfs, _⟩ :=
    FrameInv_acquire (hinva h) (run_single hacq)
  obtain ⟨hcc, _, hinvc, hsigc⟩ := run_completions (n := n) _ _ _ hg2
  have hsig : ∀ g, wc.chain.mInFlightFences[wc.chain.mCurrentFrame]? = some g →
      g ∈ wc.device.signaled := by
    intro g hg
    rw [hcc, hcb] at hg
    rw [hfence] at hg
    simp only [Option.some.injEq] at hg
    subst hg
    exact hsigc _ (hdb ▸ hfs)
  obtain ⟨hinv1, hf1, g, pre, ws, ss, hg, hlog, hfl, hns⟩ :=
    FrameInv_submit (hinvc hinvb) hsig (run_single hsub)
  refine ⟨hinv1, by rw [hf1, hcc, hcb, hca], g, wc.log ++ pre, ws, ss,
    by rw [← hca, ← hcb, ← hcc]; exact hg, hlog, by simp [hfl], hns⟩

theorem FrameInv_frameLoop {framesInFlight : Nat} (frames : List Frame) :
    ∀ (n : Nat) (w w1 : World), FrameInv framesInFlight n w →
      run framesInFlight w (frameLoop frames) = some w1 →
      FrameInv framesInFlight (n + frames.length) w1 ∧
      w1.chain.mInFlightFences = w.chain.mInFlightFences := by
  induction frames with
  | nil =>
    intro n w w1 h hr
    simp [frameLoop, run] at hr
    subst hr
    exact ⟨h, rfl⟩
  | cons fr rest ih =>
    intro n w w1 h hr
    simp only [frameLoop] at hr
    obtain ⟨w2, hfr, hrest⟩ := run_bind_some hr
    obtain ⟨h2, hf2, _⟩ := FrameInv_frame fr h hfr
    obtain ⟨h3, hf3⟩ := ih (n + 1) w2 w1 h2 hrest
    refine ⟨?_, by rw [hf3, hf2]⟩
    have : n + (fr :: rest).length = n + 1 + rest.length := by
      simp only [List.length_cons]; omega
    rw [this]
    exact h3

theorem FrameInv_fresh (framesInFlight : Nat) (dev : SyncHandles) (images : List Nat) :
    FrameInv framesInFlight 0 (freshWorld framesInFlight dev images) := by
  simp [FrameInv, freshWorld, CreateSyncObjects, SwapChain.withImages]

theorem FrameInv_bound {framesInFlight n : Nat} {w : World}
    (h : FrameInv framesInFlight n w) : w.device.inFlight.length ≤ framesInFlight := by
  obtain ⟨h1, _, _, _, h5, h6⟩ := h
  have hsub : w.device.inFlight.map Work.fence ⊆ w.chain.mInFlightFences := by
    intro f hf
    simp only [List.mem_map] at hf
    obtain ⟨wk, hwk, rfl⟩ := hf
    exact List.getElem?_mem (h6 wk hwk).2
  have := (List.Nodup.subperm h5 hsub).length_le
  simpa [h1] using this

/-- C2. In a frame loop on a fresh chain (each frame one AcquireNextImage
and one SubmitCommandBuffers that returns, batches completing at any
moment in between), the fence on which the AcquireNextImage of frame
k + FRAMES_IN_FLIGHT blocks is the in-flight fence that the
SubmitCommandBuffers of frame k reset and armed; that acquire returns only
once the fence is signaled again, when the batch of frame k is no longer
in flight; and at most FRAMES_IN_FLIGHT batches are in flight before and
after every frame and after the acquire. -/
theorem acquire_blocks_on_fence_of_frame_k
    (framesInFlight : Nat) (dev : SyncHandles) (images : List Nat)
    (earlier between : List Frame) (frameK : Frame)
    (completed : List Nat) (acquireResult : VkResult) (acquireIndex : Nat)
    (wa wb wc wd : World)
    (hlen : between.length + 1 = framesInFlight)
    (hearlier : run framesInFlight (freshWorld framesInFlight dev images)
      (frameLoop earlier) = some wa)
    (hframeK : run framesInFlight wa frameK.actions = some wb)
    (hbetween : run framesInFlight wb (frameLoop between) = some wc)
    (hacquire : run framesInFlight wc (completed.map Action.gpuComplete ++
      [Action.acquire acquireResult acquireIndex]) = some wd) :
    ∃ fence,
      (∃ l waitSemaphore signalSemaphore,
        wb.log = l ++ [DeviceCall.vkResetFences fence,
          DeviceCall.vkQueueSubmit waitSemaphore VK_PIPELINE_STAGE_COLOR_ATTACHMENT_OUTPUT_BIT
            signalSemaphore fence frameK.imageIndex VK_SUCCESS,
          DeviceCall.vkQueuePresentKHR signalSemaphore frameK.imageIndex
            frameK.presentResult]) ∧
      (⟨frameK.imageIndex, fence, earlier.length⟩ : Work) ∈ wb.device.inFlight ∧
      fence ∉ wb.device.signaled ∧
      (∃ semaphore,
        wd.log = wc.log ++ [DeviceCall.vkWaitForFences fence,
          DeviceCall.vkAcquireNextImageKHR semaphore acquireResult acquireIndex]) ∧
      fence ∈ wd.device.signaled ∧
      (∀ wk ∈ wd.device.inFlight, wk.serial ≠ earlier.length) ∧
      wa.device.inFlight.length ≤ framesInFlight ∧
      wb.device.inFlight.length ≤ framesInFlight ∧
      wc.device.inFlight.length ≤ framesInFlight ∧
      wd.device.inFlight.length ≤ framesInFlight := by
  obtain ⟨hia, hfa⟩ := FrameInv_frameLoop earlier 0 _ wa
    (FrameInv_fresh framesInFlight dev images) hearlier
  rw [Nat.zero_add] at hia
  obtain ⟨hib, hfb, fence, l, ws, ss, hfence, hlog, hmem, hns⟩ :=
    FrameInv_frame frameK hia hframeK
  obtain ⟨hic, hfc⟩ := FrameInv_frameLoop between (earlier.length + 1) wb wc hib hbetween
  obtain ⟨we, hg, hacq⟩ := run_bind_some hacquire
  obtain ⟨hce, hle, hinve, _⟩ :=
    run_completions (n := earlier.length + 1 + between.length) _ _ _ hg
  obtain ⟨hid, _, hdd, g, sem, hgf, hgs, hlogd⟩ :=
    FrameInv_acquire (hinve hic) (run_single hacq)
  have hslot : we.chain.mCurrentFrame = earlier.length % framesInFlight := by
    rw [(hinve hic).2.1]
    have : earlier.length + 1 + between.length = earlier.length + framesInFlight := by omega
    rw [this, Nat.add_mod_right]
  have hgeq : g = fence := by
    rw [hslot, hce, hfc, hfb] at hgf
    rw [hfence] at hgf
    simp only [Option.some.injEq] at hgf
    exact hgf.symm
  subst hgeq
  refine ⟨g, ⟨l, ws, ss, hlog⟩, hmem, hns, ⟨sem, by rw [hlogd, hle]⟩, by rw [hdd]; exact hgs,
    ?_, FrameInv_bound hia, FrameInv_bound hib, FrameInv_bound hic, FrameInv_bound hid⟩
  intro wk hwk hser
  rw [hdd] at hwk
  obtain ⟨_, _, _, h4, _, h6⟩ := hinve hic
  have hf := (h6 wk hwk).2
  rw [hser, hce, hfc, hfb, hfence] at hf
  simp only [Option.some.injEq] at hf
  exact h4 wk hwk (hf ▸ hgs)

/-- An instance of the log property: two frame slots, one image; the
second submit for image 0 comes after the batch of the first has
completed. -/
theorem submit_waits_for_prior_fence_of_image_witness :
    (∀ s, s < 2 → sampleHandles.inFlight s ≠ VK_NULL_HANDLE) ∧
    run 2 (freshWorld 2 sampleHandles [7]) sampleActions = some sampleWorld ∧
    step 2 sampleWorld (Action.submit 0 VK_SUCCESS VK_SUCCESS) = some sampleWorldNext ∧
    ∃ pre post waitSemaphore signalSemaphore fence,
      sampleWorldNext.log = sampleWorld.log ++ pre ++
        DeviceCall.vkQueueSubmit waitSemaphore VK_PIPELINE_STAGE_COLOR_ATTACHMENT_OUTPUT_BIT
          signalSemaphore fence 0 VK_SUCCESS :: post ∧
      (∀ c ∈ pre, ¬ isSubmitTo 0 c) ∧
      (∀ f, DeviceCall.vkWaitForFences f ∈ pre → f ∈ sampleWorld.device.signaled) ∧
      ∀ (a b : List DeviceCall) (a1 a2 a3 f : Nat),
        sampleWorld.log = a ++ DeviceCall.vkQueueSubmit a1 a2 a3 f 0 VK_SUCCESS :: b →
        (∀ c ∈ b, ¬ isSubmitTo 0 c) →
        DeviceCall.vkWaitForFences f ∈ b ++ pre :=
  have h : ∀ s, s < 2 → sampleHandles.inFlight s ≠ VK_NULL_HANDLE := fun s _ => by
    simp [sampleHandles, VK_NULL_HANDLE]
  ⟨h, rfl, rfl,
    submit_waits_for_prior_fence_of_image 2 sampleHandles [7] h sampleActions
      sampleWorld sampleWorldNext rfl 0 VK_SUCCESS rfl⟩

/-- Witness of C2: two frame slots, two images; frame 2 acquires after the
batch of frame 0 has completed. -/
theorem acquire_blocks_on_fence_of_frame_k_witness :
    [sampleFrame1].length + 1 = 2 ∧
    run 2 (freshWorld 2 sampleHandles [7, 8]) (frameLoop []) = some sampleLoopStart ∧
    run 2 sampleLoopStart sampleFrame0.actions = some sampleLoopAfter0 ∧
    run 2 sampleLoopAfter0 (frameLoop [sampleFrame1]) = some sampleLoopAfter1 ∧
    run 2 sampleLoopAfter1 ([0].map Action.gpuComplete ++ [Action.acquire VK_SUCCESS 0]) =
      some sampleLoopAcquired ∧
    ∃ fence,
      (∃ l waitSemaphore signalSemaphore,
        sampleLoopAfter0.log = l ++ [DeviceCall.vkResetFences fence,
          DeviceCall.vkQueueSubmit waitSemaphore VK_PIPELINE_STAGE_COLOR_ATTACHMENT_OUTPUT_BIT
            signalSemaphore fence sampleFrame0.imageIndex VK_SUCCESS,
          DeviceCall.vkQueuePresentKHR signalSemaphore sampleFrame0.imageIndex
            sampleFrame0.presentResult]) ∧
      (⟨sampleFrame0.imageIndex, fence, ([] : List Frame).length⟩ : Work) ∈
        sampleLoopAfter0.device.inFlight ∧
      fence ∉ sampleLoopAfter0.device.signaled ∧
      (∃ semaphore,
        sampleLoopAcquired.log = sampleLoopAfter1.log ++ [DeviceCall.vkWaitForFences fence,
          DeviceCall.vkAcquireNextImageKHR semaphore VK_SUCCESS 0]) ∧
      fence ∈ sampleLoopAcquired.device.signaled ∧
      (∀ wk ∈ sampleLoopAcquired.device.inFlight, wk.serial ≠ ([] : List Frame).length) ∧
      sampleLoopStart.device.inFlight.length ≤ 2 ∧
      sampleLoopAfter0.device.inFlight.length ≤ 2 ∧
      sampleLoopAfter1.device.inFlight.length ≤ 2 ∧
      sampleLoopAcquired.device.inFlight.length ≤ 2 :=
  ⟨rfl, rfl, rfl, rfl, rfl,
    acquire_blocks_on_fence_of_frame_k 2 sampleHandles [7, 8] [] [sampleFrame1] sampleFrame0
      [0] VK_SUCCESS 0 sampleLoopStart sampleLoopAfter0 sampleLoopAfter1 sampleLoopAcquired
      rfl rfl rfl rfl rfl⟩

theorem step_slot {framesInFlight : Nat} {w w1 : World} {a : Action}
    (h : step framesInFlight w a = some w1) :
    w1.chain.mCurrentFrame =
      match a with
      | .submit _ submitResult _ =>
          if submitResult = VK_SUCCESS then (w.chain.mCurrentFrame + 1) % framesInFlight
          else w.chain.mCurrentFrame
      | _ => w.chain.mCurrentFrame := by
  cases a with
  | gpuComplete k =>
    simp only [step, Option.some.injEq] at h
    subst h
    rfl
  | acquire r idx =>
    simp only [step, Option.bind_eq_bind, Option.bind_eq_some] at h
    obtain ⟨out, hout, d, _, hw⟩ := h
    simp only [Option.some.injEq] at hw
    obtain ⟨_, _, _, _, _, hchain, _⟩ := AcquireNextImage_some hout
    subst hw
    simp [hchain]
  | submit i sres pres =>
    simp only [step, Option.bind_eq_bind, Option.bind_eq_some] at h
    obtain ⟨out, hout, d, _, hw⟩ := h
    simp only [Option.some.injEq] at hw
    obtain ⟨_, _, _, _, _, _, _, _, _, hchain, _, _⟩ := SubmitCommandBuffers_some hout
    subst hw
    simp [hchain]

theorem run_slot {framesInFlight : Nat} (hF : 1 ≤ framesInFlight) (actions : List Action) :
    ∀ (w w1 : World), w.chain.mCurrentFrame < framesInFlight →
      run framesInFlight w actions = some w1 →
      w1.chain.mCurrentFrame =
        (w.chain.mCurrentFrame + returnedSubmits actions) % framesInFlight := by
  induction actions with
  | nil =>
    intro w w1 hlt h
    simp [run] at h
    subst h
    simp [returnedSubmits, Nat.mod_eq_of_lt hlt]
  | cons a rest ih =>
    intro w w1 hlt h
    simp only [run] at h
    cases hs : step framesInFlight w a with
    | none => simp [hs] at h
    | some w2 =>
      simp only [hs, Option.some_bind] at h
      have hslot := step_slot hs
      cases a with
      | gpuComplete k =>
        simp only at hslot
        rw [ih w2 w1 (hslot ▸ hlt) h, hslot]
        simp [returnedSubmits]
      | acquire r idx =>
        simp only at hslot
        rw [ih w2 w1 (hslot ▸ hlt) h, hslot]
        simp [returnedSubmits]
      | submit i sres pres =>
        simp only at hslot
        by_cases hok : sres = VK_SUCCESS
        · simp only [hok, if_true] at hslot
          have hlt2 : w2.chain.mCurrentFrame < framesInFlight := by
            rw [hslot]; exact Nat.mod_lt _ (by omega)
          rw [ih w2 w1 hlt2 h, hslot]
          simp only [returnedSubmits, hok, if_true, Nat.mod_add_mod]
          congr 1
          omega
        · simp only [hok, if_false] at hslot
          rw [ih w2 w1 (hslot ▸ hlt) h, hslot]
          simp [returnedSubmits, hok]

/-- C3. Every SubmitCommandBuffers call that returns, whatever the present
status, leaves the frame slot at (old slot + 1) mod FRAMES_IN_FLIGHT; so
from slot 0, after any calls of which n are returning submits, the slot is
n mod FRAMES_IN_FLIGHT, lies below FRAMES_IN_FLIGHT, and is 0 again
exactly when n is a multiple of FRAMES_IN_FLIGHT. -/
theorem frame_slot_round_robin (framesInFlight : Nat) (hF : 1 ≤ framesInFlight) :
    (∀ (sc : SwapChain) (imageIndex : Nat) (submitResult presentResult r : VkResult)
        (out : Outcome (Except String VkResult)),
      SubmitCommandBuffers framesInFlight sc imageIndex submitResult presentResult = some out →
      out.value = Except.ok r →
      r = presentResult ∧
      out.chain.mCurrentFrame = (sc.mCurrentFrame + 1) % framesInFlight ∧
      out.chain.mCurrentFrame < framesInFlight) ∧
    (∀ (w w1 : World) (actions : List Action),
      w.chain.mCurrentFrame = 0 →
      run framesInFlight w actions = some w1 →
      w1.chain.mCurrentFrame = returnedSubmits actions % framesInFlight ∧
      w1.chain.mCurrentFrame < framesInFlight ∧
      (w1.chain.mCurrentFrame = 0 ↔ framesInFlight ∣ returnedSubmits actions)) := by
  constructor
  · intro sc imageIndex submitResult presentResult r out hout hval
    obtain ⟨_, _, _, _, _, _, _, _, _, hchain, hv, _⟩ := SubmitCommandBuffers_some hout
    by_cases hok : submitResult = VK_SUCCESS
    · simp only [hok, if_true] at hv hchain
      rw [hv] at hval
      simp only [Except.ok.injEq] at hval
      refine ⟨hval.symm, by simp [hchain], ?_⟩
      simp only [hchain]
      exact Nat.mod_lt _ (by omega)
    · simp only [hok, if_false] at hv
      rw [hv] at hval
      exact Except.noConfusion hval
  · intro w w1 actions h0 hrun
    have h := run_slot hF actions w w1 (by omega) hrun
    rw [h0, Nat.zero_add] at h
    refine ⟨h, h ▸ Nat.mod_lt _ (by omega), ?_⟩
    rw [h]
    exact Nat.dvd_iff_mod_eq_zero.symm

/-- Witness of C3 at the FRAMES_IN_FLIGHT of the header: on the sample
chain, in slot 1, a returning submit leaves slot 0. -/
theorem frame_slot_round_robin_witness :
    1 ≤ FRAMES_IN_FLIGHT ∧
    (∃ out, SubmitCommandBuffers FRAMES_IN_FLIGHT sampleChain 2 VK_SUCCESS VK_SUBOPTIMAL_KHR
        = some out ∧ out.value = Except.ok VK_SUBOPTIMAL_KHR ∧ out.chain.mCurrentFrame = 0) ∧
    sampleWorld.chain.mCurrentFrame = 1 % FRAMES_IN_FLIGHT :=
  have hF : 1 ≤ FRAMES_IN_FLIGHT := by decide
  ⟨hF,
    ⟨_, rfl, rfl,
      ((frame_slot_round_robin FRAMES_IN_FLIGHT hF).1 sampleChain 2 VK_SUCCESS VK_SUBOPTIMAL_KHR
        VK_SUBOPTIMAL_KHR _ rfl rfl).2.1⟩,
    ((frame_slot_round_robin FRAMES_IN_FLIGHT hF).2 (freshWorld 2 sampleHandles [7])
      sampleWorld sampleActions rfl rfl).1⟩

theorem getElem?_some_of_lt (xs : List Nat) (i : Nat) (h : i < xs.length) :
    ∃ x, xs[i]? = some x :=
  ⟨xs[i], List.getElem?_eq_getElem h⟩

/-- On a built chain, with an image index in range and at least one frame
slot, `SubmitCommandBuffers` is defined. -/
theorem SubmitCommandBuffers_defined {framesInFlight : Nat} {sc : SwapChain}
    (hF : 1 ≤ framesInFlight) (hb : sc.Built framesInFlight) (imageIndex : Nat)
    (hi : imageIndex < sc.GetImageCount) (submitResult presentResult : VkResult) :
    ∃ out, SubmitCommandBuffers framesInFlight sc imageIndex submitResult presentResult
      = some out := by
  obtain ⟨h1, h2, h3, h4, h5⟩ := hb
  obtain ⟨recorded, hr⟩ := getElem?_some_of_lt sc.mImagesInFlight imageIndex (h4 ▸ hi)
  obtain ⟨fence, hf⟩ := getElem?_some_of_lt sc.mInFlightFences sc.mCurrentFrame (h3 ▸ h5)
  obtain ⟨ws, hws⟩ := getElem?_some_of_lt sc.mImageAvailableSemaphores sc.mCurrentFrame (h1 ▸ h5)
  obtain ⟨ss, hss⟩ := getElem?_some_of_lt sc.mRenderFinishedSemaphores sc.mCurrentFrame (h2 ▸ h5)
  have hne : framesInFlight ≠ 0 := by omega
  unfold SubmitCommandBuffers
  simp only [hr, hf, hws, hss, Option.bind_eq_bind, Option.some_bind]
  by_cases hs : submitResult = VK_SUCCESS
  · simp [hs, hne]
  · simp [hs]

/-- On a built chain `AcquireNextImage` is defined. -/
theorem AcquireNextImage_defined {framesInFlight : Nat} {sc : SwapChain}
    (hb : sc.Built framesInFlight) (devResult : VkResult) (devIndex : Nat) :
    ∃ out, AcquireNextImage sc devResult devIndex = some out := by
  obtain ⟨h1, _, h3, _, h5⟩ := hb
  obtain ⟨fence, hf⟩ := getElem?_some_of_lt sc.mInFlightFences sc.mCurrentFrame (h3 ▸ h5)
  obtain ⟨ws, hws⟩ := getElem?_some_of_lt sc.mImageAvailableSemaphores sc.mCurrentFrame (h1 ▸ h5)
  unfold AcquireNextImage
  simp [hf, hws]

/-- The chain that `CreateSyncObjects` completes is built. -/
theorem Built_fresh (framesInFlight : Nat) (hF : 1 ≤ framesInFlight) (dev : SyncHandles)
    (images : List Nat) :
    (freshWorld framesInFlight dev images).chain.Built framesInFlight := by
  simp [SwapChain.Built, freshWorld, CreateSyncObjects, SwapChain.withImages, vectorResize,
    SwapChain.GetImageCount]
  omega

/-- C4. On a built chain, SubmitCommandBuffers for an image index below
the image count, entered in frame slot s, waits on the image-in-flight
table entry of that index exactly when the entry is not the null handle,
as its first device call and with no other wait; afterwards, whether the
call returns or throws, the entry of that index is the in-flight fence of
slot s and every other entry is as before. -/
theorem submit_waits_on_entry_then_records
    (framesInFlight : Nat) (sc : SwapChain) (imageIndex : Nat)
    (submitResult presentResult : VkResult)
    (hF : 1 ≤ framesInFlight) (hb : sc.Built framesInFlight)
    (hi : imageIndex < sc.GetImageCount) :
    ∃ out entry fence,
      SubmitCommandBuffers framesInFlight sc imageIndex submitResult presentResult = some out ∧
      sc.mImagesInFlight[imageIndex]? = some entry ∧
      sc.mInFlightFences[sc.mCurrentFrame]? = some fence ∧
      (entry ≠ VK_NULL_HANDLE →
        ∃ rest, out.calls = DeviceCall.vkWaitForFences entry :: rest ∧
          ∀ f, DeviceCall.vkWaitForFences f ∉ rest) ∧
      (entry = VK_NULL_HANDLE → ∀ f, DeviceCall.vkWaitForFences f ∉ out.calls) ∧
      out.chain.mImagesInFlight[imageIndex]? = some fence ∧
      (∀ j, j ≠ imageIndex → out.chain.mImagesInFlight[j]? = sc.mImagesInFlight[j]?) ∧
      out.chain.mImagesInFlight.length = sc.mImagesInFlight.length := by
  obtain ⟨out, hout⟩ := SubmitCommandBuffers_defined hF hb imageIndex hi submitResult
    presentResult
  obtain ⟨recorded, fence, ws, ss, hrec, hfence, _, _, hcalls, hchain, _, _⟩ :=
    SubmitCommandBuffers_some hout
  have hlt : imageIndex < sc.mImagesInFlight.length := hb.2.2.2.1 ▸ hi
  refine ⟨out, recorded, fence, hout, hrec, hfence, ?_, ?_, ?_, ?_, ?_⟩
  · intro hne
    refine ⟨[DeviceCall.vkResetFences fence,
      DeviceCall.vkQueueSubmit ws VK_PIPELINE_STAGE_COLOR_ATTACHMENT_OUTPUT_BIT ss fence
        imageIndex submitResult] ++
      (if submitResult = VK_SUCCESS then
        [DeviceCall.vkQueuePresentKHR ss imageIndex presentResult] else []), ?_, ?_⟩
    · simp [hcalls, hne]
    · intro f
      by_cases hs : submitResult = VK_SUCCESS <;> simp [hs]
  · intro he f
    rw [hcalls]
    by_cases hs : submitResult = VK_SUCCESS <;> simp [hs, he]
  · simp [hchain, List.getElem?_set_self, hlt]
  · intro j hj
    simp [hchain, List.getElem?_set_ne (Ne.symm hj)]
  · simp [hchain]

/-- Witness of C4: the sample chain in slot 1, image 2, whose entry is the
fence of slot 0. -/
theorem submit_waits_on_entry_then_records_witness :
    1 ≤ 2 ∧ sampleChain.Built 2 ∧ 2 < sampleChain.GetImageCount ∧
    ∃ out entry fence,
      SubmitCommandBuffers 2 sampleChain 2 VK_SUCCESS VK_SUCCESS = some out ∧
      sampleChain.mImagesInFlight[2]? = some entry ∧
      sampleChain.mInFlightFences[sampleChain.mCurrentFrame]? = some fence ∧
      (entry ≠ VK_NULL_HANDLE →
        ∃ rest, out.calls = DeviceCall.vkWaitForFences entry :: rest ∧
          ∀ f, DeviceCall.vkWaitForFences f ∉ rest) ∧
      (entry = VK_NULL_HANDLE → ∀ f, DeviceCall.vkWaitForFences f ∉ out.calls) ∧
      out.chain.mImagesInFlight[2]? = some fence ∧
      (∀ j, j ≠ 2 → out.chain.mImagesInFlight[j]? = sampleChain.mImagesInFlight[j]?) ∧
      out.chain.mImagesInFlight.length = sampleChain.mImagesInFlight.length :=
  have hb : sampleChain.Built 2 := by
    simp [SwapChain.Built, sampleChain, CreateSyncObjects, SwapChain.withImages,
      SwapChain.GetImageCount]
  have hi : 2 < sampleChain.GetImageCount := by
    simp [sampleChain, CreateSyncObjects, SwapChain.withImages, SwapChain.GetImageCount]
  ⟨by decide, hb, hi,
    submit_waits_on_entry_then_records 2 sampleChain 2 VK_SUCCESS VK_SUCCESS (by decide) hb hi⟩

/-- C5, as stated, fails: when the display subsystem answers the acquire,
or the present, with a lost device, AcquireNextImage and
SubmitCommandBuffers return that status to the caller; it is neither
success nor one of the two rebuild reports, and nothing is thrown. -/
theorem device_lost_is_returned_not_raised :
    (∃ out, AcquireNextImage sampleChain VK_ERROR_DEVICE_LOST 0 = some out ∧
      out.value.1 = VK_ERROR_DEVICE_LOST ∧
      ¬ isOk out.value.1 ∧ ¬ isMustRebuild out.value.1) ∧
    (∃ out, SubmitCommandBuffers FRAMES_IN_FLIGHT sampleChain 2 VK_SUCCESS VK_ERROR_DEVICE_LOST
        = some out ∧
      out.value = Except.ok VK_ERROR_DEVICE_LOST ∧
      ¬ isOk VK_ERROR_DEVICE_LOST ∧ ¬ isMustRebuild VK_ERROR_DEVICE_LOST) := by
  refine ⟨⟨_, rfl, rfl, ?_, ?_⟩, ⟨_, rfl, rfl, ?_, ?_⟩⟩ <;>
    simp [isOk, isMustRebuild, VK_ERROR_DEVICE_LOST, VK_SUCCESS, VK_SUBOPTIMAL_KHR,
      VK_ERROR_OUT_OF_DATE_KHR]

/-- C5, amended. On a built chain AcquireNextImage returns the status the
display subsystem gave the acquire, unchanged; SubmitCommandBuffers throws
exactly when the queue submit does not succeed, and otherwise returns the
status the display subsystem gave the present, unchanged. So a returned
status is Ok or MustRebuild exactly when the display subsystem reported
that status. -/
theorem statuses_are_passed_through
    (framesInFlight : Nat) (sc : SwapChain) (imageIndex devIndex : Nat)
    (acquireResult submitResult presentResult : VkResult)
    (hF : 1 ≤ framesInFlight) (hb : sc.Built framesInFlight)
    (hi : imageIndex < sc.GetImageCount) :
    (∃ out, AcquireNextImage sc acquireResult devIndex = some out ∧
      out.value = (acquireResult, devIndex)) ∧
    (∃ out, SubmitCommandBuffers framesInFlight sc imageIndex submitResult presentResult
        = some out ∧
      (submitResult = VK_SUCCESS → out.value = Except.ok presentResult) ∧
      (submitResult ≠ VK_SUCCESS →
        out.value = Except.error "failed to submit draw command buffer!") ∧
      ∀ r, out.value = Except.ok r →
        ((isOk r ∨ isMustRebuild r) ↔ (isOk presentResult ∨ isMustRebuild presentResult))) := by
  constructor
  · obtain ⟨out, hout⟩ := AcquireNextImage_defined hb acquireResult devIndex
    obtain ⟨_, _, _, _, _, _, hv⟩ := AcquireNextImage_some hout
    exact ⟨out, hout, hv⟩
  · obtain ⟨out, hout⟩ := SubmitCommandBuffers_defined hF hb imageIndex hi submitResult
      presentResult
    obtain ⟨_, _, _, _, _, _, _, _, _, _, hv, _⟩ := SubmitCommandBuffers_some hout
    refine ⟨out, hout, ?_, ?_, ?_⟩
    · intro hs
      simpa [hs] using hv
    · intro hs
      simpa [hs] using hv
    · intro r hr
      by_cases hs : submitResult = VK_SUCCESS
      · simp only [hs, if_true] at hv
        rw [hv] at hr
        simp only [Except.ok.injEq] at hr
        rw [hr]
      · simp only [hs, if_false] at hv
        rw [hv] at hr
        exact Except.noConfusion hr

/-- Witness of the amended C5 on the sample chain: an out-of-date acquire
and a suboptimal present. -/
theorem statuses_are_passed_through_witness :
    1 ≤ 2 ∧ sampleChain.Built 2 ∧ 2 < sampleChain.GetImageCount ∧
    (∃ out, AcquireNextImage sampleChain VK_ERROR_OUT_OF_DATE_KHR 0 = some out ∧
      out.value = (VK_ERROR_OUT_OF_DATE_KHR, 0)) ∧
    (∃ out, SubmitCommandBuffers 2 sampleChain 2 VK_SUCCESS VK_SUBOPTIMAL_KHR = some out ∧
      out.value = Except.ok VK_SUBOPTIMAL_KHR) :=
  have hb : sampleChain.Built 2 := by
    simp [SwapChain.Built, sampleChain, CreateSyncObjects, SwapChain.withImages,
      SwapChain.GetImageCount]
  have hi : 2 < sampleChain.GetImageCount := by
    simp [sampleChain, CreateSyncObjects, SwapChain.withImages, SwapChain.GetImageCount]
  have h := statuses_are_passed_through 2 sampleChain 2 0 VK_ERROR_OUT_OF_DATE_KHR VK_SUCCESS
    VK_SUBOPTIMAL_KHR (by decide) hb hi
  ⟨by decide, hb, hi, h.1,
    h.2.elim fun out ho => ⟨out, ho.1, ho.2.1 rfl⟩⟩

/-- C6, as stated, fails: with minImageCount = 2^32 - 1 and an unbounded
maximum the sum wraps in `uint32_t` and the chain requests 0 images, not
minImageCount + 1. -/
theorem imageCount_wraps_at_uint32_max :
    (capsWithCounts UINT32_MAX 0).maxImageCount = 0 ∧
    CreateSwapChain.imageCount (capsWithCounts UINT32_MAX 0) = 0 ∧
    CreateSwapChain.imageCount (capsWithCounts UINT32_MAX 0) ≠
      (capsWithCounts UINT32_MAX 0).minImageCount + 1 := by
  simp [CreateSwapChain.imageCount, capsWithCounts, UINT32_MAX]

/-- C6, amended. For every capabilities value whose minImageCount is below
2^32 - 1, the image count CreateSwapChain requests is minImageCount + 1
when maxImageCount is 0 or minImageCount + 1 <= maxImageCount, and is
maxImageCount otherwise; min = 2, max = 0 requests 3 and min = 3, max = 3
requests 3. -/
theorem imageCount_is_min_plus_one_capped (capabilities : VkSurfaceCapabilitiesKHR)
    (hmin : capabilities.minImageCount < UINT32_MAX) :
    CreateSwapChain.imageCount capabilities =
      (if capabilities.maxImageCount = 0 ∨
          capabilities.minImageCount + 1 ≤ capabilities.maxImageCount
        then capabilities.minImageCount + 1 else capabilities.maxImageCount) ∧
    CreateSwapChain.imageCount (capsWithCounts 2 0) = 3 ∧
    CreateSwapChain.imageCount (capsWithCounts 3 3) = 3 := by
  have hlt : capabilities.minImageCount + 1 < 2 ^ 32 := by
    simp only [UINT32_MAX] at hmin; omega
  refine ⟨?_, by decide, by decide⟩
  unfold CreateSwapChain.imageCount
  simp only [Nat.mod_eq_of_lt hlt]
  by_cases h0 : capabilities.maxImageCount = 0
  · simp [h0]
  · by_cases hle : capabilities.minImageCount + 1 ≤ capabilities.maxImageCount
    · have : ¬ (capabilities.maxImageCount > 0 ∧
          capabilities.minImageCount + 1 > capabilities.maxImageCount) := by omega
      simp [this, hle]
    · have : capabilities.maxImageCount > 0 ∧
          capabilities.minImageCount + 1 > capabilities.maxImageCount := by omega
      simp [this, h0, hle]

/-- Witness of the amended C6: min = 2 with a maximum of 8 requests 3. -/
theorem imageCount_is_min_plus_one_capped_witness :
    (capsWithCounts 2 8).minImageCount < UINT32_MAX ∧
    CreateSwapChain.imageCount (capsWithCounts 2 8) = 3 :=
  have h : (capsWithCounts 2 8).minImageCount < UINT32_MAX := by decide
  ⟨h, (imageCount_is_min_plus_one_capped (capsWithCounts 2 8) h).1⟩

/-- C7, as stated, fails on 32-bit values: with min = 5 and max = 3 the
selected count is 3, below the minimum; with min = max = 2^32 - 1 it is 0. -/
theorem imageCount_outside_bounds :
    ¬ ((5 ≤ CreateSwapChain.imageCount (capsWithCounts 5 3) ∧
          CreateSwapChain.imageCount (capsWithCounts 5 3) ≤ 3) ∨
        ((3 : Nat) = 0 ∧ CreateSwapChain.imageCount (capsWithCounts 5 3) = 5 + 1)) ∧
    ¬ ((UINT32_MAX ≤ CreateSwapChain.imageCount (capsWithCounts UINT32_MAX UINT32_MAX) ∧
          CreateSwapChain.imageCount (capsWithCounts UINT32_MAX UINT32_MAX) ≤ UINT32_MAX) ∨
        (UINT32_MAX = 0 ∧
          CreateSwapChain.imageCount (capsWithCounts UINT32_MAX UINT32_MAX) = UINT32_MAX + 1)) := by
  simp [CreateSwapChain.imageCount, capsWithCounts, UINT32_MAX]

/-- C7, amended. For all 32-bit minImageCount below 2^32 - 1 and
maxImageCount that is 0 or at least minImageCount, the image count N
selected by CreateSwapChain satisfies min <= N <= max when max is not 0,
and N = min + 1 when max is 0 (unbounded). -/
theorem imageCount_within_bounds (capabilities : VkSurfaceCapabilitiesKHR)
    (hmin : capabilities.minImageCount < UINT32_MAX)
    (hmax : capabilities.maxImageCount ≤ UINT32_MAX)
    (hwf : capabilities.maxImageCount = 0 ∨
      capabilities.minImageCount ≤ capabilities.maxImageCount) :
    (capabilities.maxImageCount ≠ 0 →
      capabilities.minImageCount ≤ CreateSwapChain.imageCount capabilities ∧
      CreateSwapChain.imageCount capabilities ≤ capabilities.maxImageCount) ∧
    (capabilities.maxImageCount = 0 →
      CreateSwapChain.imageCount capabilities = capabilities.minImageCount + 1) ∧
    CreateSwapChain.imageCount capabilities ≤ UINT32_MAX := by
  have hlt : capabilities.minImageCount + 1 < 2 ^ 32 := by
    simp only [UINT32_MAX] at hmin; omega
  unfold CreateSwapChain.imageCount
  simp only [Nat.mod_eq_of_lt hlt]
  simp only [UINT32_MAX] at hmin hmax ⊢
  by_cases hc : capabilities.maxImageCount > 0 ∧
      capabilities.minImageCount + 1 > capabilities.maxImageCount
  · rw [if_pos hc]
    refine ⟨fun _ => ⟨by omega, Nat.le_refl _⟩, fun h0 => by omega, by omega⟩
  · rw [if_neg hc]
    refine ⟨fun hne => ⟨by omega, by omega⟩, fun _ => rfl, by omega⟩

/-- Witness of the amended C7: min = 3, max = 3 selects 3. -/
theorem imageCount_within_bounds_witness :
    (capsWithCounts 3 3).minImageCount < UINT32_MAX ∧
    (capsWithCounts 3 3).maxImageCount ≤ UINT32_MAX ∧
    (3 ≤ CreateSwapChain.imageCount (capsWithCounts 3 3) ∧
      CreateSwapChain.imageCount (capsWithCounts 3 3) ≤ 3) :=
  have h1 : (capsWithCounts 3 3).minImageCount < UINT32_MAX := by decide
  have h2 : (capsWithCounts 3 3).maxImageCount ≤ UINT32_MAX := by decide
  ⟨h1, h2, (imageCount_within_bounds (capsWithCounts 3 3) h1 h2 (Or.inr (Nat.le_refl 3))).1
    (by decide)⟩

/-- C8, as stated, fails: with the sentinel current extent, bounds 10x10
.. 5x5 and a window of 7x7 the result is 10x10, above the upper bound; and
a current extent of 2^32 - 1 by 600, which is not the sentinel pair, is
not returned, because only the width is tested. -/
theorem extent_outside_inverted_bounds :
    ChooseSwapExtent ⟨7, 7⟩ (capsWithExtents ⟨UINT32_MAX, UINT32_MAX⟩ ⟨10, 10⟩ ⟨5, 5⟩)
      = ⟨10, 10⟩ ∧
    ¬ ((ChooseSwapExtent ⟨7, 7⟩
        (capsWithExtents ⟨UINT32_MAX, UINT32_MAX⟩ ⟨10, 10⟩ ⟨5, 5⟩)).width ≤ 5) ∧
    (⟨UINT32_MAX, 600⟩ : VkExtent2D) ≠ ⟨UINT32_MAX, UINT32_MAX⟩ ∧
    ChooseSwapExtent ⟨800, 600⟩ (capsWithExtents ⟨UINT32_MAX, 600⟩ ⟨1, 1⟩ ⟨4096, 4096⟩)
      ≠ ⟨UINT32_MAX, 600⟩ := by
  simp [ChooseSwapExtent, capsWithExtents, UINT32_MAX]

/-- C8, amended. ChooseSwapExtent returns the device-reported current
extent whenever the width of that extent is not 2^32 - 1 (the test for the
sentinel), and otherwise returns the window extent clamped per axis,
max(lower, min(upper, requested)); an axis of the result lies within its
bounds when the lower bound of that axis does not exceed the upper one,
and equals the requested value when that value is within the bounds:
sentinel, window 1920x1080, bounds 1x1 .. 4096x4096 gives 1920x1080. -/
theorem extent_is_current_or_clamped_window (mWindowExtent : VkExtent2D)
    (capabilities : VkSurfaceCapabilitiesKHR) :
    (capabilities.currentExtent.width ≠ UINT32_MAX →
      ChooseSwapExtent mWindowExtent capabilities = capabilities.currentExtent) ∧
    (capabilities.currentExtent.width = UINT32_MAX →
      (ChooseSwapExtent mWindowExtent capabilities).width =
        max capabilities.minImageExtent.width
          (min capabilities.maxImageExtent.width mWindowExtent.width) ∧
      (ChooseSwapExtent mWindowExtent capabilities).height =
        max capabilities.minImageExtent.height
          (min capabilities.maxImageExtent.height mWindowExtent.height) ∧
      (capabilities.minImageExtent.width ≤ capabilities.maxImageExtent.width →
        capabilities.minImageExtent.width ≤ (ChooseSwapExtent mWindowExtent capabilities).width ∧
        (ChooseSwapExtent mWindowExtent capabilities).width ≤ capabilities.maxImageExtent.width) ∧
      (capabilities.minImageExtent.height ≤ capabilities.maxImageExtent.height →
        capabilities.minImageExtent.height ≤
          (ChooseSwapExtent mWindowExtent capabilities).height ∧
        (ChooseSwapExtent mWindowExtent capabilities).height ≤
          capabilities.maxImageExtent.height) ∧
      (capabilities.minImageExtent.width ≤ mWindowExtent.width →
        mWindowExtent.width ≤ capabilities.maxImageExtent.width →
        (ChooseSwapExtent mWindowExtent capabilities).width = mWindowExtent.width) ∧
      (capabilities.minImageExtent.height ≤ mWindowExtent.height →
        mWindowExtent.height ≤ capabilities.maxImageExtent.height →
        (ChooseSwapExtent mWindowExtent capabilities).height = mWindowExtent.height)) ∧
    ChooseSwapExtent ⟨1920, 1080⟩
      (capsWithExtents ⟨UINT32_MAX, UINT32_MAX⟩ ⟨1, 1⟩ ⟨4096, 4096⟩) = ⟨1920, 1080⟩ := by
  refine ⟨?_, ?_, by decide⟩
  · intro h
    simp [ChooseSwapExtent, h]
  · intro h
    simp only [ChooseSwapExtent, h, ne_eq, not_true_eq_false, if_false]
    refine ⟨trivial, trivial, ?_, ?_, ?_, ?_⟩
    · intro hle; constructor <;> omega
    · intro hle; constructor <;> omega
    · intro h1 h2; omega
    · intro h1 h2; omega

theorem isPreferredFormat_iff (f : VkSurfaceFormatKHR) :
    isPreferredFormat f = true ↔
      (f.format = VK_FORMAT_B8G8R8A8_SRGB ∧
        f.colorSpace = VK_COLOR_SPACE_SRGB_NONLINEAR_KHR) := by
  simp [isPreferredFormat]

theorem loop_some {l : List VkSurfaceFormatKHR} {c : VkSurfaceFormatKHR}
    (h : ChooseSwapSurfaceFormat.loop l = some c) :
    isPreferredFormat c = true ∧
    ∃ before after, l = before ++ c :: after ∧
      ∀ g ∈ before, isPreferredFormat g = false := by
  induction l with
  | nil => simp [ChooseSwapSurfaceFormat.loop] at h
  | cons a rest ih =>
    simp only [ChooseSwapSurfaceFormat.loop] at h
    by_cases ha : isPreferredFormat a = true
    · simp only [ha, if_true, Option.some.injEq] at h
      subst h
      exact ⟨ha, [], rest, rfl, by simp⟩
    · simp only [ha] at h
      obtain ⟨hc, before, after, hl, hb⟩ := ih h
      refine ⟨hc, a :: before, after, by simp [hl], ?_⟩
      intro g hg
      simp only [List.mem_cons] at hg
      rcases hg with rfl | hg
      · simpa using ha
      · exact hb g hg

theorem loop_none {l : List VkSurfaceFormatKHR}
    (h : ChooseSwapSurfaceFormat.loop l = none) :
    ∀ g ∈ l, isPreferredFormat g = false := by
  induction l with
  | nil => simp
  | cons a rest ih =>
    simp only [ChooseSwapSurfaceFormat.loop] at h
    by_cases ha : isPreferredFormat a = true
    · simp [ha] at h
    · simp only [ha] at h
      intro g hg
      simp only [List.mem_cons] at hg
      rcases hg with rfl | hg
      · simpa using ha
      · exact ih h g hg

/-- C9. For every non-empty list of advertised surface formats,
ChooseSwapSurfaceFormat returns the first entry whose format is 8-bit BGRA
sRGB and whose colour space is sRGB non-linear when there is such an
entry, and the first entry of the list otherwise; the result is a member
of the list. -/
theorem surface_format_first_preferred_or_first
    (availableFormats : List VkSurfaceFormatKHR) (hne : availableFormats ≠ []) :
    ∃ chosen, ChooseSwapSurfaceFormat availableFormats = some chosen ∧
      chosen ∈ availableFormats ∧
      ((∃ f ∈ availableFormats, f.format = VK_FORMAT_B8G8R8A8_SRGB ∧
          f.colorSpace = VK_COLOR_SPACE_SRGB_NONLINEAR_KHR) →
        chosen.format = VK_FORMAT_B8G8R8A8_SRGB ∧
        chosen.colorSpace = VK_COLOR_SPACE_SRGB_NONLINEAR_KHR ∧
        ∃ before after, availableFormats = before ++ chosen :: after ∧
          ∀ g ∈ before, ¬ (g.format = VK_FORMAT_B8G8R8A8_SRGB ∧
            g.colorSpace = VK_COLOR_SPACE_SRGB_NONLINEAR_KHR)) ∧
      ((∀ f ∈ availableFormats, ¬ (f.format = VK_FORMAT_B8G8R8A8_SRGB ∧
          f.colorSpace = VK_COLOR_SPACE_SRGB_NONLINEAR_KHR)) →
        availableFormats.head? = some chosen) := by
  cases hl : ChooseSwapSurfaceFormat.loop availableFormats with
  | some c =>
    obtain ⟨hc, before, after, hsplit, hb⟩ := loop_some hl
    refine ⟨c, by simp [ChooseSwapSurfaceFormat, hl], by simp [hsplit], ?_, ?_⟩
    · intro _
      refine ⟨((isPreferredFormat_iff c).mp hc).1, ((isPreferredFormat_iff c).mp hc).2,
        before, after, hsplit, ?_⟩
      intro g hg hp
      have := hb g hg
      rw [(isPreferredFormat_iff g).mpr hp] at this
      exact Bool.noConfusion this
    · intro hall
      exact absurd ((isPreferredFormat_iff c).mp hc) (hall c (by simp [hsplit]))
  | none =>
    have hnone := loop_none hl
    cases availableFormats with
    | nil => exact absurd rfl hne
    | cons a rest =>
      refine ⟨a, by simp [ChooseSwapSurfaceFormat, hl], by simp, ?_, by simp⟩
      rintro ⟨f, hf, hp⟩
      have := hnone f hf
      rw [(isPreferredFormat_iff f).mpr hp] at this
      exact Bool.noConfusion this

/-- Witness of C9: the preferred pair is second in the list. -/
theorem surface_format_first_preferred_or_first_witness :
    ([⟨VK_FORMAT_B8G8R8A8_UNORM, 0⟩, ⟨VK_FORMAT_B8G8R8A8_SRGB, 0⟩] :
      List VkSurfaceFormatKHR) ≠ [] ∧
    ChooseSwapSurfaceFormat [⟨VK_FORMAT_B8G8R8A8_UNORM, 0⟩, ⟨VK_FORMAT_B8G8R8A8_SRGB, 0⟩]
      = some ⟨VK_FORMAT_B8G8R8A8_SRGB, 0⟩ ∧
    ∃ chosen, ChooseSwapSurfaceFormat
        [⟨VK_FORMAT_B8G8R8A8_UNORM, 0⟩, ⟨VK_FORMAT_B8G8R8A8_SRGB, 0⟩] = some chosen ∧
      chosen ∈ ([⟨VK_FORMAT_B8G8R8A8_UNORM, 0⟩, ⟨VK_FORMAT_B8G8R8A8_SRGB, 0⟩] :
        List VkSurfaceFormatKHR) :=
  have hne : ([⟨VK_FORMAT_B8G8R8A8_UNORM, 0⟩, ⟨VK_FORMAT_B8G8R8A8_SRGB, 0⟩] :
      List VkSurfaceFormatKHR) ≠ [] := by simp
  ⟨hne, by decide,
    (surface_format_first_preferred_or_first _ hne).elim fun c hc => ⟨c, hc.1, hc.2.1⟩⟩

/-- C10, as stated, fails: on an empty list of formats
ChooseSwapSurfaceFormat reads `availableFormats[0]`, which is out of
range, and produces no value. -/
theorem surface_format_of_empty_list_out_of_range :
    ChooseSwapSurfaceFormat [] = none := by
  decide

/-- C10, amended. For every non-empty advertised format list, every
present-mode list (the empty one included) and every capabilities value,
ChooseSwapSurfaceFormat, ChooseSwapPresentMode and ChooseSwapExtent each
produce a value: a member of the format list, the mailbox or the FIFO
mode, and an extent. -/
theorem selectors_produce_a_value
    (availableFormats : List VkSurfaceFormatKHR) (availablePresentModes : List Nat)
    (mWindowExtent : VkExtent2D) (capabilities : VkSurfaceCapabilitiesKHR)
    (hne : availableFormats ≠ []) :
    (∃ f, ChooseSwapSurfaceFormat availableFormats = some f ∧ f ∈ availableFormats) ∧
    (∃ m, ChooseSwapPresentMode availablePresentModes = m ∧
      (m = VK_PRESENT_MODE_MAILBOX_KHR ∨ m = VK_PRESENT_MODE_FIFO_KHR)) ∧
    (∃ e, ChooseSwapExtent mWindowExtent capabilities = e) ∧
    ChooseSwapPresentMode [] = VK_PRESENT_MODE_FIFO_KHR := by
  refine ⟨?_, ⟨_, rfl, ?_⟩, ⟨_, rfl⟩, rfl⟩
  · cases hl : ChooseSwapSurfaceFormat.loop availableFormats with
    | some c =>
      obtain ⟨_, before, after, hsplit, _⟩ := loop_some hl
      exact ⟨c, by simp [ChooseSwapSurfaceFormat, hl], by simp [hsplit]⟩
    | none =>
      cases availableFormats with
      | nil => exact absurd rfl hne
      | cons a rest => exact ⟨a, by simp [ChooseSwapSurfaceFormat, hl], by simp⟩
  · induction availablePresentModes with
    | nil => right; rfl
    | cons a rest ih =>
      simp only [ChooseSwapPresentMode]
      by_cases ha : a = VK_PRESENT_MODE_MAILBOX_KHR
      · left; simp [ha]
      · simpa [ha] using ih

/-- Witness of the amended C10: one format that is not the preferred one,
no present mode at all. -/
theorem selectors_produce_a_value_witness :
    ([⟨VK_FORMAT_B8G8R8A8_UNORM, 0⟩] : List VkSurfaceFormatKHR) ≠ [] ∧
    (∃ f, ChooseSwapSurfaceFormat [⟨VK_FORMAT_B8G8R8A8_UNORM, 0⟩] = some f ∧
      f ∈ ([⟨VK_FORMAT_B8G8R8A8_UNORM, 0⟩] : List VkSurfaceFormatKHR)) ∧
    ChooseSwapPresentMode [] = VK_PRESENT_MODE_FIFO_KHR :=
  have hne : ([⟨VK_FORMAT_B8G8R8A8_UNORM, 0⟩] : List VkSurfaceFormatKHR) ≠ [] := by simp
  have h := selectors_produce_a_value [⟨VK_FORMAT_B8G8R8A8_UNORM, 0⟩] [] ⟨800, 600⟩
    (capsWithCounts 2 0) hne
  ⟨hne, h.1, h.2.2.2⟩

theorem complete_inFlight_subset (d : Device) (k : Nat) :
    ∀ wk ∈ (d.complete k).inFlight, wk ∈ d.inFlight := by
  intro wk hwk
  unfold Device.complete at hwk
  cases hk : d.inFlight[k]? with
  | none => simpa [hk] using hwk
  | some x =>
    simp only [hk] at hwk
    exact (List.eraseIdx_sublist _ _).subset hwk

theorem run_completions_subset {framesInFlight : Nat} (ks : List Nat) :
    ∀ (w w1 : World), run framesInFlight w (ks.map Action.gpuComplete) = some w1 →
      ∀ wk ∈ w1.device.inFlight, wk ∈ w.device.inFlight := by
  induction ks with
  | nil =>
    intro w w1 h
    simp [run] at h
    subst h
    exact fun _ hwk => hwk
  | cons k rest ih =>
    intro w w1 h
    simp only [List.map_cons, run, step, Option.some_bind] at h
    exact fun wk hwk => complete_inFlight_subset _ k wk (ih _ w1 h wk hwk)

/-- Inside a frame: the world just before the submit. -/
theorem frame_before_submit {framesInFlight n : Nat} {w w1 : World} (fr : Frame)
    (h : FrameInv framesInFlight n w)
    (hr : run framesInFlight w fr.actions = some w1) :
    ∃ wc, FrameInv framesInFlight n wc ∧ wc.chain = w.chain ∧
      (∀ wk ∈ wc.device.inFlight, wk ∈ w.device.inFlight) ∧
      (∀ g, wc.chain.mInFlightFences[wc.chain.mCurrentFrame]? = some g →
        g ∈ wc.device.signaled) ∧
      step framesInFlight wc (Action.submit fr.imageIndex VK_SUCCESS fr.presentResult)
        = some w1 := by
  unfold Frame.actions at hr
  obtain ⟨wc, hr3, hsub⟩ := run_bind_some hr
  obtain ⟨wb, hr2, hg2⟩ := run_bind_some hr3
  obtain ⟨wa, hg1, hacq⟩ := run_bind_some hr2
  obtain ⟨hca, _, hinva, _⟩ := run_completions (n := n) _ _ _ hg1
  obtain ⟨hinvb, hcb, hdb, fence, sem, hfence, hfs, _⟩ :=
    FrameInv_acquire (hinva h) (run_single hacq)
  obtain ⟨hcc, _, hinvc, hsigc⟩ := run_completions (n := n) _ _ _ hg2
  refine ⟨wc, hinvc hinvb, by rw [hcc, hcb, hca], ?_, ?_, run_single hsub⟩
  · intro wk hwk
    have h1 := run_completions_subset _ _ _ hg2 wk hwk
    rw [hdb] at h1
    exact run_completions_subset _ _ _ hg1 wk h1
  · intro g hg
    rw [hcc, hcb] at hg
    rw [hfence] at hg
    simp only [Option.some.injEq] at hg
    subst hg
    exact hsigc _ (hdb ▸ hfs)

/-- A submit that hands work to the queue in a world of the frame loop
finds no batch for its image in flight, and keeps the table covering the
batches in flight. -/
theorem submit_finds_image_idle {framesInFlight n : Nat} {w w1 : World} {i : Nat}
    {pres : VkResult}
    (h : FrameInv framesInFlight n w) (hc : TableCovers w)
    (hnn : ∀ f ∈ w.chain.mInFlightFences, f ≠ VK_NULL_HANDLE)
    (hsig : ∀ g, w.chain.mInFlightFences[w.chain.mCurrentFrame]? = some g →
      g ∈ w.device.signaled)
    (hs : step framesInFlight w (Action.submit i VK_SUCCESS pres) = some w1) :
    (∀ wk ∈ w.device.inFlight, wk.imageIndex ≠ i) ∧ TableCovers w1 := by
  have hidle : ∀ wk ∈ w.device.inFlight, wk.imageIndex ≠ i := by
    intro wk hwk hi
    have hs2 := hs
    simp only [step, Option.bind_eq_bind, Option.bind_eq_some] at hs2
    obtain ⟨out, hout, d, hexec, _⟩ := hs2
    obtain ⟨recorded, fence, ws, ss, hrec, _, _, _, hcalls, _, _, _⟩ :=
      SubmitCommandBuffers_some hout
    have htab := hc wk hwk
    rw [hi, hrec] at htab
    simp only [Option.some.injEq] at htab
    have hwf : wk.fence ≠ VK_NULL_HANDLE := hnn _ (List.getElem?_mem (h.2.2.2.2.2 wk hwk).2)
    have hr : recorded ≠ VK_NULL_HANDLE := htab ▸ hwf
    rw [hcalls] at hexec
    simp only [hr, ne_eq, not_false_eq_true, if_true, List.cons_append, List.nil_append,
      List.singleton_append] at hexec
    have := execAll_wait_cons hexec
    exact h.2.2.2.1 wk hwk (htab ▸ this)
  refine ⟨hidle, ?_⟩
  obtain ⟨_, _, fence, pre, ws, ss, hfence, _, hfl, _⟩ := FrameInv_submit h hsig hs
  simp only [step, Option.bind_eq_bind, Option.bind_eq_some] at hs
  obtain ⟨out, hout, d, _, hw⟩ := hs
  simp only [Option.some.injEq] at hw
  obtain ⟨recorded, fence2, _, _, hrec, hfence2, _, _, _, hchain, _, _⟩ :=
    SubmitCommandBuffers_some hout
  have hlt : i < w.chain.mImagesInFlight.length := by
    by_contra hge
    rw [List.getElem?_eq_none (Nat.le_of_not_lt hge)] at hrec
    exact Option.noConfusion hrec
  have hfe : fence2 = fence := by
    rw [h.2.1, hfence] at hfence2
    simp only [Option.some.injEq] at hfence2
    exact hfence2.symm
  intro wk hwk
  rw [hfl] at hwk
  have hch : w1.chain = out.chain := by rw [← hw]
  rw [hch, hchain]
  simp only [List.mem_append, List.mem_singleton] at hwk
  rcases hwk with hwk | rfl
  · have hne := hidle wk hwk
    simp only [List.getElem?_set_ne (Ne.symm hne)]
    exact hc wk hwk
  · simp [List.getElem?_set_self, hlt, hfe]

/-- In the frame loop on a fresh chain with non-null fence handles, the
batches in flight are covered by the table after every frame. -/
theorem TableCovers_frameLoop {framesInFlight : Nat} (frames : List Frame) :
    ∀ (n : Nat) (w w1 : World), FrameInv framesInFlight n w → TableCovers w →
      (∀ f ∈ w.chain.mInFlightFences, f ≠ VK_NULL_HANDLE) →
      run framesInFlight w (frameLoop frames) = some w1 →
      TableCovers w1 := by
  induction frames with
  | nil =>
    intro n w w1 _ hc _ hr
    simp [frameLoop, run] at hr
    subst hr
    exact hc
  | cons fr rest ih =>
    intro n w w1 h hc hnn hr
    simp only [frameLoop] at hr
    obtain ⟨w2, hfr, hrest⟩ := run_bind_some hr
    obtain ⟨h2, hf2, _⟩ := FrameInv_frame fr h hfr
    obtain ⟨wc, hic, hcc, hsubset, hsig, hstep⟩ := frame_before_submit fr h hfr
    have hcov : TableCovers wc := fun wk hwk => hcc ▸ hc wk (hsubset wk hwk)
    have hc2 := (submit_finds_image_idle hic hcov (hcc ▸ hnn) hsig hstep).2
    exact ih (n + 1) w2 w1 h2 hc2 (hf2 ▸ hnn) hrest

/-- No two batches for one image: in the frame loop on a fresh chain with
non-null fence handles, at the submit of every frame no batch rendering to
the image of that frame is still in flight. -/
theorem frame_loop_submits_to_idle_image
    (framesInFlight : Nat) (dev : SyncHandles) (images : List Nat)
    (hdev : ∀ s, s < framesInFlight → dev.inFlight s ≠ VK_NULL_HANDLE)
    (frames : List Frame) (fr : Frame) (w w1 : World)
    (hrun : run framesInFlight (freshWorld framesInFlight dev images) (frameLoop frames)
      = some w)
    (hframe : run framesInFlight w fr.actions = some w1) :
    ∃ wc, step framesInFlight wc (Action.submit fr.imageIndex VK_SUCCESS fr.presentResult)
        = some w1 ∧
      (∀ wk ∈ wc.device.inFlight, wk.imageIndex ≠ fr.imageIndex) ∧
      w1.device.inFlight = wc.device.inFlight ++
        [⟨fr.imageIndex, dev.inFlight (frames.length % framesInFlight), frames.length⟩] := by
  have hfresh := FrameInv_fresh framesInFlight dev images
  have hnn0 := (TableTracks_fresh framesInFlight dev images hdev).1
  have hc0 : TableCovers (freshWorld framesInFlight dev images) := by
    intro wk hwk
    simp [freshWorld] at hwk
  obtain ⟨hi, hf⟩ := FrameInv_frameLoop frames 0 _ w hfresh hrun
  rw [Nat.zero_add] at hi
  have hc := TableCovers_frameLoop frames 0 _ w hfresh hc0 hnn0 hrun
  obtain ⟨wc, hic, hcc, hsubset, hsig, hstep⟩ := frame_before_submit fr hi hframe
  have hcov : TableCovers wc := fun wk hwk => hcc ▸ hc wk (hsubset wk hwk)
  have hnn : ∀ f ∈ wc.chain.mInFlightFences, f ≠ VK_NULL_HANDLE := by
    rw [hcc, hf]; exact hnn0
  obtain ⟨_, _, fence, _, _, _, hfence, _, hfl, _⟩ := FrameInv_submit hic hsig hstep
  refine ⟨wc, hstep, (submit_finds_image_idle hic hcov hnn hsig hstep).1, ?_⟩
  rw [hfl]
  rw [hcc, hf] at hfence
  have hlt : frames.length % framesInFlight < framesInFlight := by
    have := hi.2.1
    have h5 := hi.1
    by_contra hge
    have : w.chain.mInFlightFences[frames.length % framesInFlight]? = none := by
      rw [hf]
      apply List.getElem?_eq_none
      simp [freshWorld, CreateSyncObjects]
      omega
    rw [hf] at this
    rw [this] at hfence
    exact Option.noConfusion hfence
  simp only [freshWorld, CreateSyncObjects] at hfence
  rw [List.getElem?_map, List.getElem?_range hlt] at hfence
  simp only [Option.map_some', Option.some.injEq] at hfence
  rw [hfence]

/-- C11. For every list of available present modes, ChooseSwapPresentMode
returns the mailbox mode if and only if the list contains it, and the FIFO
mode otherwise, whether or not FIFO is in the list and whatever other
modes, the immediate one for instance, are in it. -/
theorem present_mode_mailbox_iff_listed (availablePresentModes : List Nat) :
    (ChooseSwapPresentMode availablePresentModes = VK_PRESENT_MODE_MAILBOX_KHR ↔
      VK_PRESENT_MODE_MAILBOX_KHR ∈ availablePresentModes) ∧
    (VK_PRESENT_MODE_MAILBOX_KHR ∉ availablePresentModes →
      ChooseSwapPresentMode availablePresentModes = VK_PRESENT_MODE_FIFO_KHR) ∧
    ChooseSwapPresentMode [VK_PRESENT_MODE_IMMEDIATE_KHR] = VK_PRESENT_MODE_FIFO_KHR ∧
    ChooseSwapPresentMode [VK_PRESENT_MODE_IMMEDIATE_KHR, VK_PRESENT_MODE_FIFO_RELAXED_KHR]
      = VK_PRESENT_MODE_FIFO_KHR ∧
    ChooseSwapPresentMode [VK_PRESENT_MODE_FIFO_KHR, VK_PRESENT_MODE_IMMEDIATE_KHR,
      VK_PRESENT_MODE_MAILBOX_KHR] = VK_PRESENT_MODE_MAILBOX_KHR := by
  refine ⟨?_, ?_, by decide, by decide, by decide⟩
  · induction availablePresentModes with
    | nil => simp [ChooseSwapPresentMode, VK_PRESENT_MODE_FIFO_KHR, VK_PRESENT_MODE_MAILBOX_KHR]
    | cons a rest ih =>
      simp only [ChooseSwapPresentMode, List.mem_cons]
      by_cases ha : a = VK_PRESENT_MODE_MAILBOX_KHR
      · simp [ha]
      · simp only [ha, if_false, ih]
        constructor
        · exact Or.inr
        · rintro (h | h)
          · exact absurd h.symm ha
          · exact h
  · induction availablePresentModes with
    | nil => intro _; rfl
    | cons a rest ih =>
      intro h
      simp only [List.mem_cons, not_or] at h
      simp only [ChooseSwapPresentMode]
      rw [if_neg (fun e => h.1 e.symm)]
      exact ih h.2

/-- C12. For any two chains, compareSwapFormats is true if and only if
their colour image formats are equal and their depth formats are equal;
no other member of either chain (extent, images, sync objects, frame slot)
has a part in the answer. -/
theorem compareSwapFormats_iff_formats_match (a b : SwapChain) :
    (a.compareSwapFormats b = true ↔
      (a.mSwapChainImageFormat = b.mSwapChainImageFormat ∧
        a.mSwapChainDepthFormat = b.mSwapChainDepthFormat)) ∧
    (∀ a1 b1 : SwapChain,
      a1.mSwapChainImageFormat = a.mSwapChainImageFormat →
      a1.mSwapChainDepthFormat = a.mSwapChainDepthFormat →
      b1.mSwapChainImageFormat = b.mSwapChainImageFormat →
      b1.mSwapChainDepthFormat = b.mSwapChainDepthFormat →
      a1.compareSwapFormats b1 = a.compareSwapFormats b) ∧
    (a.mSwapChainDepthFormat ≠ b.mSwapChainDepthFormat → a.compareSwapFormats b = false) ∧
    (a.mSwapChainImageFormat ≠ b.mSwapChainImageFormat → a.compareSwapFormats b = false) := by
  refine ⟨?_, ?_, ?_, ?_⟩
  · simp only [SwapChain.compareSwapFormats, Bool.and_eq_true, beq_iff_eq]
    constructor
    · rintro ⟨h1, h2⟩; exact ⟨h2.symm, h1.symm⟩
    · rintro ⟨h1, h2⟩; exact ⟨h2.symm, h1.symm⟩
  · intro a1 b1 h1 h2 h3 h4
    simp only [SwapChain.compareSwapFormats, h1, h2, h3, h4]
  · intro h
    simp [SwapChain.compareSwapFormats, Ne.symm h]
  · intro h
    simp [SwapChain.compareSwapFormats, Ne.symm h]

/-- C15. On a built chain, a SubmitCommandBuffers call entered in frame
slot s whose queue submit succeeds issues, after the optional wait on the
table entry and as its last three device calls, in this order: the reset
of the in-flight fence of slot s; the queue submit, which waits on the
image-available semaphore of slot s at the colour-attachment-output stage,
signals the render-finished semaphore of slot s and arms the in-flight
fence of slot s; and the present, which waits on that render-finished
semaphore and names the image index of the caller. Nothing falls between
the reset and the queue submit. -/
theorem submit_resets_then_submits_then_presents
    (framesInFlight : Nat) (sc : SwapChain) (imageIndex : Nat) (presentResult : VkResult)
    (hF : 1 ≤ framesInFlight) (hb : sc.Built framesInFlight)
    (hi : imageIndex < sc.GetImageCount) :
    ∃ out entry fence imageAvailable renderFinished,
      SubmitCommandBuffers framesInFlight sc imageIndex VK_SUCCESS presentResult = some out ∧
      sc.mImagesInFlight[imageIndex]? = some entry ∧
      sc.mInFlightFences[sc.mCurrentFrame]? = some fence ∧
      sc.mImageAvailableSemaphores[sc.mCurrentFrame]? = some imageAvailable ∧
      sc.mRenderFinishedSemaphores[sc.mCurrentFrame]? = some renderFinished ∧
      out.calls =
        (if entry ≠ VK_NULL_HANDLE then [DeviceCall.vkWaitForFences entry] else []) ++
        [DeviceCall.vkResetFences fence,
         DeviceCall.vkQueueSubmit imageAvailable VK_PIPELINE_STAGE_COLOR_ATTACHMENT_OUTPUT_BIT
           renderFinished fence imageIndex VK_SUCCESS,
         DeviceCall.vkQueuePresentKHR renderFinished imageIndex presentResult] := by
  obtain ⟨out, hout⟩ := SubmitCommandBuffers_defined hF hb imageIndex hi VK_SUCCESS
    presentResult
  obtain ⟨recorded, fence, ws, ss, hrec, hfence, hws, hss, hcalls, _, _, _⟩ :=
    SubmitCommandBuffers_some hout
  refine ⟨out, recorded, fence, ws, ss, hout, hrec, hfence, hws, hss, ?_⟩
  rw [hcalls]
  simp

/-- Witness of C15 on the sample chain: slot 1, image 2, whose table entry
is the fence of slot 0. -/
theorem submit_resets_then_submits_then_presents_witness :
    1 ≤ 2 ∧ sampleChain.Built 2 ∧ 2 < sampleChain.GetImageCount ∧
    (∃ out, SubmitCommandBuffers 2 sampleChain 2 VK_SUCCESS VK_SUCCESS = some out ∧
      out.calls = [DeviceCall.vkWaitForFences 1, DeviceCall.vkResetFences 2,
        DeviceCall.vkQueueSubmit 101 VK_PIPELINE_STAGE_COLOR_ATTACHMENT_OUTPUT_BIT 201 2 2
          VK_SUCCESS,
        DeviceCall.vkQueuePresentKHR 201 2 VK_SUCCESS]) ∧
    ∃ out entry fence imageAvailable renderFinished,
      SubmitCommandBuffers 2 sampleChain 2 VK_SUCCESS VK_SUCCESS = some out ∧
      sampleChain.mImagesInFlight[2]? = some entry ∧
      sampleChain.mInFlightFences[sampleChain.mCurrentFrame]? = some fence ∧
      sampleChain.mImageAvailableSemaphores[sampleChain.mCurrentFrame]? = some imageAvailable ∧
      sampleChain.mRenderFinishedSemaphores[sampleChain.mCurrentFrame]? = some renderFinished ∧
      out.calls =
        (if entry ≠ VK_NULL_HANDLE then [DeviceCall.vkWaitForFences entry] else []) ++
        [DeviceCall.vkResetFences fence,
         DeviceCall.vkQueueSubmit imageAvailable VK_PIPELINE_STAGE_COLOR_ATTACHMENT_OUTPUT_BIT
           renderFinished fence 2 VK_SUCCESS,
         DeviceCall.vkQueuePresentKHR renderFinished 2 VK_SUCCESS] :=
  have hb : sampleChain.Built 2 := by
    simp [SwapChain.Built, sampleChain, CreateSyncObjects, SwapChain.withImages,
      SwapChain.GetImageCount]
  have hi : 2 < sampleChain.GetImageCount := by
    simp [sampleChain, CreateSyncObjects, SwapChain.withImages, SwapChain.GetImageCount]
  ⟨by decide, hb, hi, ⟨_, rfl, rfl⟩,
    submit_resets_then_submits_then_presents 2 sampleChain 2 VK_SUCCESS (by decide) hb hi⟩

/-- C16. On a built chain AcquireNextImage leaves the object as it was,
frame slot and image-in-flight table included, whatever status the display
subsystem reports; so when SubmitCommandBuffers follows it directly, the
semaphore the acquire handed to the display subsystem is the one the queue
submit waits on, and the fence the acquire waited on is the one the submit
resets and arms. -/
theorem acquire_keeps_slot_and_table
    (framesInFlight : Nat) (sc : SwapChain) (imageIndex devIndex : Nat)
    (acquireResult submitResult presentResult : VkResult)
    (hF : 1 ≤ framesInFlight) (hb : sc.Built framesInFlight)
    (hi : imageIndex < sc.GetImageCount) :
    ∃ acquired submitted fence semaphore signalSemaphore,
      AcquireNextImage sc acquireResult devIndex = some acquired ∧
      acquired.chain = sc ∧
      acquired.chain.mCurrentFrame = sc.mCurrentFrame ∧
      acquired.chain.mImagesInFlight = sc.mImagesInFlight ∧
      acquired.calls = [DeviceCall.vkWaitForFences fence,
        DeviceCall.vkAcquireNextImageKHR semaphore acquireResult devIndex] ∧
      SubmitCommandBuffers framesInFlight acquired.chain imageIndex submitResult presentResult
        = some submitted ∧
      DeviceCall.vkResetFences fence ∈ submitted.calls ∧
      DeviceCall.vkQueueSubmit semaphore VK_PIPELINE_STAGE_COLOR_ATTACHMENT_OUTPUT_BIT
        signalSemaphore fence imageIndex submitResult ∈ submitted.calls ∧
      (∀ c ∈ submitted.calls, ∀ f, c = DeviceCall.vkResetFences f → f = fence) ∧
      (∀ c ∈ submitted.calls, ∀ a1 a2 a3 f i r,
        c = DeviceCall.vkQueueSubmit a1 a2 a3 f i r → a1 = semaphore ∧ f = fence) := by
  obtain ⟨acquired, hacq⟩ := AcquireNextImage_defined hb acquireResult devIndex
  obtain ⟨fence, sem, hfence, hsem, hcalls, hchain, _⟩ := AcquireNextImage_some hacq
  obtain ⟨submitted, hsub⟩ := SubmitCommandBuffers_defined hF hb imageIndex hi submitResult
    presentResult
  obtain ⟨recorded, fence2, ws, ss, _, hfence2, hws, _, hscalls, _, _, _⟩ :=
    SubmitCommandBuffers_some hsub
  have hf : fence2 = fence := by
    rw [hfence] at hfence2
    exact (Option.some.inj hfence2).symm
  have hs : ws = sem := by
    rw [hsem] at hws
    exact (Option.some.inj hws).symm
  subst hf
  subst hs
  refine ⟨acquired, submitted, fence2, ws, ss, hacq, hchain, by rw [hchain], by rw [hchain],
    hcalls, by rw [hchain]; exact hsub, ?_, ?_, ?_, ?_⟩
  · rw [hscalls]; simp
  · rw [hscalls]; simp
  · intro c hc f hcf
    rw [hscalls] at hc
    subst hcf
    by_cases hr : recorded = VK_NULL_HANDLE <;>
      by_cases hok : submitResult = VK_SUCCESS <;>
        simp [hr, hok] at hc <;> exact hc
  · intro c hc a1 a2 a3 f i r hcf
    rw [hscalls] at hc
    subst hcf
    by_cases hr : recorded = VK_NULL_HANDLE <;>
      by_cases hok : submitResult = VK_SUCCESS <;>
        simp [hr, hok] at hc <;> exact ⟨hc.1, hc.2.2.2.1⟩

/-- Witness of C16 on the sample chain, with an out-of-date acquire. -/
theorem acquire_keeps_slot_and_table_witness :
    1 ≤ 2 ∧ sampleChain.Built 2 ∧ 2 < sampleChain.GetImageCount ∧
    ∃ acquired submitted fence semaphore,
      AcquireNextImage sampleChain VK_ERROR_OUT_OF_DATE_KHR 0 = some acquired ∧
      acquired.chain = sampleChain ∧
      SubmitCommandBuffers 2 acquired.chain 2 VK_SUCCESS VK_SUCCESS = some submitted ∧
      acquired.calls = [DeviceCall.vkWaitForFences fence,
        DeviceCall.vkAcquireNextImageKHR semaphore VK_ERROR_OUT_OF_DATE_KHR 0] ∧
      DeviceCall.vkResetFences fence ∈ submitted.calls :=
  have hb : sampleChain.Built 2 := by
    simp [SwapChain.Built, sampleChain, CreateSyncObjects, SwapChain.withImages,
      SwapChain.GetImageCount]
  have hi : 2 < sampleChain.GetImageCount := by
    simp [sampleChain, CreateSyncObjects, SwapChain.withImages, SwapChain.GetImageCount]
  ⟨by decide, hb, hi,
    (acquire_keeps_slot_and_table 2 sampleChain 2 0 VK_ERROR_OUT_OF_DATE_KHR VK_SUCCESS
      VK_SUCCESS (by decide) hb hi).elim
      fun a ha => ha.elim fun s hs => hs.elim fun f hf => hf.elim fun sem hsem =>
        hsem.elim fun _ h => ⟨a, s, f, sem, h.1, h.2.1, h.2.2.2.2.2.1, h.2.2.2.2.1, h.2.2.2.2.2.2.1⟩⟩

theorem CreateSwapChain_ok {dev : DeviceAnswers} {old : Nat} {sc sc1 : SwapChain}
    {calls : List CreateCall} (h : CreateSwapChain dev old sc = .ok (sc1, calls)) :
    ∃ surfaceFormat, ChooseSwapSurfaceFormat dev.formats = some surfaceFormat ∧
      sc1 = { sc with
        mSwapChain := dev.createSwapchain.2
        mSwapChainImages := dev.swapchainImages
        mSwapChainImageFormat := surfaceFormat.format
        mSwapChainExtent := ChooseSwapExtent sc.mWindowExtent dev.capabilities } ∧
      calls = [CreateCall.vkCreateSwapchainKHR (CreateSwapChain.imageCount dev.capabilities)
        surfaceFormat.format surfaceFormat.colorSpace
        (ChooseSwapExtent sc.mWindowExtent dev.capabilities)
        (ChooseSwapPresentMode dev.presentModes) old dev.createSwapchain.2] := by
  unfold CreateSwapChain at h
  cases hf : ChooseSwapSurfaceFormat dev.formats with
  | none => simp [hf] at h
  | some surfaceFormat =>
    simp only [hf] at h
    by_cases hr : dev.createSwapchain.1 = VK_SUCCESS
    · simp only [hr, ne_eq, not_true_eq_false, if_false, Except.ok.injEq, Prod.mk.injEq] at h
      exact ⟨surfaceFormat, rfl, h.1.symm, h.2.symm⟩
    · simp [hr] at h

theorem CreateImageViews_loop_ok (dev : DeviceAnswers) (format : Nat) (images : List Nat) :
    ∀ (i : Nat) (views : List Nat) (calls : List CreateCall),
      CreateImageViews.loop dev format i images = .ok (views, calls) →
      views.length = images.length ∧
      ∀ c ∈ calls, ∃ a1 a2 a3 a4, c = CreateCall.vkCreateImageView a1 a2 a3 a4 := by
  induction images with
  | nil =>
    intro i views calls h
    simp only [CreateImageViews.loop, Except.ok.injEq, Prod.mk.injEq] at h
    obtain ⟨rfl, rfl⟩ := h
    simp
  | cons image rest ih =>
    intro i views calls h
    simp only [CreateImageViews.loop] at h
    by_cases hr : (dev.createImageView i).1 = VK_SUCCESS
    · simp only [hr, ne_eq, not_true_eq_false, if_false] at h
      cases hl : CreateImageViews.loop dev format (i + 1) rest with
      | error e => simp [hl] at h
      | ok r =>
        obtain ⟨vs, cs⟩ := r
        simp only [hl, Except.ok.injEq, Prod.mk.injEq] at h
        obtain ⟨rfl, rfl⟩ := h
        obtain ⟨h1, h2⟩ := ih (i + 1) vs cs hl
        refine ⟨by simp [h1], ?_⟩
        intro c hc
        simp only [List.mem_cons] at hc
        rcases hc with rfl | hc
        · exact ⟨_, _, _, _, rfl⟩
        · exact h2 c hc
    · simp [hr] at h

theorem CreateDepthResources_loop_ok (dev : DeviceAnswers) (extent : VkExtent2D)
    (depthFormat : Nat) (idxs : List Nat) :
    ∀ (images memories views : List Nat) (calls : List CreateCall),
      CreateDepthResources.loop dev extent depthFormat idxs
        = .ok (images, memories, views, calls) →
      images.length = idxs.length ∧ memories.length = idxs.length ∧
      views.length = idxs.length ∧
      ∀ c ∈ calls, (∃ a1 a2 a3 a4, c = CreateCall.vkCreateImageView a1 a2 a3 a4) ∨
        (∃ a1 a2 a3 a4 a5, c = CreateCall.CreateImageFromInfo a1 a2 a3 a4 a5) := by
  induction idxs with
  | nil =>
    intro images memories views calls h
    simp only [CreateDepthResources.loop, Except.ok.injEq, Prod.mk.injEq] at h
    obtain ⟨rfl, rfl, rfl, rfl⟩ := h
    simp
  | cons i rest ih =>
    intro images memories views calls h
    simp only [CreateDepthResources.loop] at h
    cases hi : dev.createImageFromInfo i with
    | error what => simp [hi] at h
    | ok r =>
      obtain ⟨image, memory⟩ := r
      simp only [hi] at h
      by_cases hr : (dev.createDepthView i).1 = VK_SUCCESS
      · simp only [hr, ne_eq, not_true_eq_false, if_false] at h
        cases hl : CreateDepthResources.loop dev extent depthFormat rest with
        | error e => simp [hl] at h
        | ok r =>
          obtain ⟨is, ms, vs, cs⟩ := r
          simp only [hl, Except.ok.injEq, Prod.mk.injEq] at h
          obtain ⟨rfl, rfl, rfl, rfl⟩ := h
          obtain ⟨h1, h2, h3, h4⟩ := ih is ms vs cs hl
          refine ⟨by simp [h1], by simp [h2], by simp [h3], ?_⟩
          intro c hc
          simp only [List.mem_cons] at hc
          rcases hc with rfl | rfl | hc
          · exact Or.inr ⟨_, _, _, _, _, rfl⟩
          · exact Or.inl ⟨_, _, _, _, rfl⟩
          · exact h4 c hc
      · simp [hr] at h

theorem CreateFramebuffers_loop_ok (dev : DeviceAnswers) (sc : SwapChain) (idxs : List Nat) :
    ∀ (framebuffers : List Nat) (calls : List CreateCall),
      CreateFramebuffers.loop dev sc idxs = .ok (framebuffers, calls) →
      framebuffers = idxs.map (fun i => (dev.createFramebuffer i).2) ∧
      calls = idxs.map (fun i =>
        CreateCall.vkCreateFramebuffer sc.mRenderPass
          [sc.mSwapChainImageViews.getD i 0, sc.mDepthImageViews.getD i 0]
          sc.mSwapChainExtent.width sc.mSwapChainExtent.height (dev.createFramebuffer i).2) ∧
      ∀ i ∈ idxs, i < sc.mSwapChainImageViews.length ∧ i < sc.mDepthImageViews.length := by
  induction idxs with
  | nil =>
    intro framebuffers calls h
    simp only [CreateFramebuffers.loop, Except.ok.injEq, Prod.mk.injEq] at h
    obtain ⟨rfl, rfl⟩ := h
    simp
  | cons i rest ih =>
    intro framebuffers calls h
    simp only [CreateFramebuffers.loop] at h
    cases hv : sc.mSwapChainImageViews[i]? with
    | none => simp [hv] at h
    | some imageView =>
      cases hd : sc.mDepthImageViews[i]? with
      | none => simp [hv, hd] at h
      | some depthView =>
        simp only [hv, hd] at h
        by_cases hr : (dev.createFramebuffer i).1 = VK_SUCCESS
        · simp only [hr, ne_eq, not_true_eq_false, if_false] at h
          cases hl : CreateFramebuffers.loop dev sc rest with
          | error e => simp [hl] at h
          | ok r =>
            obtain ⟨fs, cs⟩ := r
            simp only [hl, Except.ok.injEq, Prod.mk.injEq] at h
            obtain ⟨rfl, rfl⟩ := h
            obtain ⟨h1, h2, h3⟩ := ih fs cs hl
            have hvl : i < sc.mSwapChainImageViews.length := by
              by_contra hge
              rw [List.getElem?_eq_none (Nat.le_of_not_lt hge)] at hv
              exact Option.noConfusion hv
            have hdl : i < sc.mDepthImageViews.length := by
              by_contra hge
              rw [List.getElem?_eq_none (Nat.le_of_not_lt hge)] at hd
              exact Option.noConfusion hd
            refine ⟨by simp [h1], ?_, ?_⟩
            · simp only [List.map_cons, ← h2]
              simp [List.getD_eq_getElem?_getD, hv, hd]
            · intro j hj
              simp only [List.mem_cons] at hj
              rcases hj with rfl | hj
              · exact ⟨hvl, hdl⟩
              · exact h3 j hj
        · simp [hr] at h


theorem CreateImageViews_ok {dev : DeviceAnswers} {sc sc1 : SwapChain}
    {calls : List CreateCall} (h : CreateImageViews dev sc = .ok (sc1, calls)) :
    ∃ views, sc1 = { sc with mSwapChainImageViews := views } ∧
      views.length = sc.mSwapChainImages.length ∧
      ∀ c ∈ calls, ∃ a1 a2 a3 a4, c = CreateCall.vkCreateImageView a1 a2 a3 a4 := by
  unfold CreateImageViews at h
  cases hl : CreateImageViews.loop dev sc.mSwapChainImageFormat 0 sc.mSwapChainImages with
  | error e => simp [hl] at h
  | ok r =>
    obtain ⟨views, cs⟩ := r
    simp only [hl, Except.ok.injEq, Prod.mk.injEq] at h
    obtain ⟨rfl, rfl⟩ := h
    obtain ⟨h1, h2⟩ := CreateImageViews_loop_ok dev _ _ 0 views cs hl
    exact ⟨views, rfl, h1, h2⟩

theorem CreateRenderPass_ok {dev : DeviceAnswers} {sc sc1 : SwapChain}
    {calls : List CreateCall} (h : CreateRenderPass dev sc = .ok (sc1, calls)) :
    sc1 = { sc with mRenderPass := dev.createRenderPass.2 } ∧
      ∃ depthFormat, calls = [CreateCall.vkCreateRenderPass sc.mSwapChainImageFormat
        depthFormat dev.createRenderPass.2] := by
  unfold CreateRenderPass at h
  cases hf : FindDepthFormat dev with
  | error what => simp [hf] at h
  | ok depthFormat =>
    simp only [hf] at h
    by_cases hr : dev.createRenderPass.1 = VK_SUCCESS
    · simp only [hr, ne_eq, not_true_eq_false, if_false, Except.ok.injEq, Prod.mk.injEq] at h
      exact ⟨h.1.symm, depthFormat, h.2.symm⟩
    · simp [hr] at h

theorem CreateDepthResources_ok {dev : DeviceAnswers} {sc sc1 : SwapChain}
    {calls : List CreateCall} (h : CreateDepthResources dev sc = .ok (sc1, calls)) :
    ∃ depthFormat images memories views,
      sc1 = { sc with
        mSwapChainDepthFormat := depthFormat
        mDepthImages := images
        mDepthImageMemorys := memories
        mDepthImageViews := views } ∧
      images.length = sc.GetImageCount ∧ memories.length = sc.GetImageCount ∧
      views.length = sc.GetImageCount ∧
      ∀ c ∈ calls, (∃ a1 a2 a3 a4, c = CreateCall.vkCreateImageView a1 a2 a3 a4) ∨
        (∃ a1 a2 a3 a4 a5, c = CreateCall.CreateImageFromInfo a1 a2 a3 a4 a5) := by
  unfold CreateDepthResources at h
  cases hf : FindDepthFormat dev with
  | error what => simp [hf] at h
  | ok depthFormat =>
    simp only [hf] at h
    cases hl : CreateDepthResources.loop dev sc.mSwapChainExtent depthFormat
        (List.range sc.GetImageCount) with
    | error e => simp [hl] at h
    | ok r =>
      obtain ⟨is, ms, vs, cs⟩ := r
      simp only [hl, Except.ok.injEq, Prod.mk.injEq] at h
      obtain ⟨rfl, rfl⟩ := h
      obtain ⟨h1, h2, h3, h4⟩ := CreateDepthResources_loop_ok dev _ _ _ is ms vs cs hl
      simp only [List.length_range] at h1 h2 h3
      exact ⟨depthFormat, is, ms, vs, rfl, h1, h2, h3, h4⟩

theorem CreateFramebuffers_ok {dev : DeviceAnswers} {sc sc1 : SwapChain}
    {calls : List CreateCall} (h : CreateFramebuffers dev sc = .ok (sc1, calls)) :
    sc1 = { sc with mSwapChainFramebuffers :=
      (List.range sc.GetImageCount).map (fun i => (dev.createFramebuffer i).2) } ∧
    calls = (List.range sc.GetImageCount).map (fun i =>
      CreateCall.vkCreateFramebuffer sc.mRenderPass
        [sc.mSwapChainImageViews.getD i 0, sc.mDepthImageViews.getD i 0]
        sc.mSwapChainExtent.width sc.mSwapChainExtent.height (dev.createFramebuffer i).2) := by
  unfold CreateFramebuffers at h
  cases hl : CreateFramebuffers.loop dev sc (List.range sc.GetImageCount) with
  | error e => simp [hl] at h
  | ok r =>
    obtain ⟨fs, cs⟩ := r
    simp only [hl, Except.ok.injEq, Prod.mk.injEq] at h
    obtain ⟨rfl, rfl⟩ := h
    obtain ⟨h1, h2, _⟩ := CreateFramebuffers_loop_ok dev sc _ fs cs hl
    exact ⟨by rw [h1], h2⟩

/-- The six steps of `Init`, one after the other, when it succeeds. -/
theorem Init_ok {framesInFlight : Nat} {dev : DeviceAnswers} {old : Nat} {sc0 sc : SwapChain}
    {calls : List CreateCall} (h : Init framesInFlight dev old sc0 = .ok (sc, calls)) :
    ∃ sc1 sc2 sc3 sc4 sc5 c1 c2 c3 c4 c5,
      CreateSwapChain dev old sc0 = .ok (sc1, c1) ∧
      CreateImageViews dev sc1 = .ok (sc2, c2) ∧
      CreateRenderPass dev sc2 = .ok (sc3, c3) ∧
      CreateDepthResources dev sc3 = .ok (sc4, c4) ∧
      CreateFramebuffers dev sc4 = .ok (sc5, c5) ∧
      sc = CreateSyncObjects framesInFlight dev.syncHandles sc5 ∧
      calls = c1 ++ c2 ++ c3 ++ c4 ++ c5 ++
        CreateSyncObjects.calls framesInFlight dev.syncHandles := by
  unfold Init at h
  cases h1 : CreateSwapChain dev old sc0 with
  | error e => simp [h1] at h
  | ok r1 =>
    obtain ⟨sc1, c1⟩ := r1
    simp only [h1] at h
    cases h2 : CreateImageViews dev sc1 with
    | error e => simp [h2] at h
    | ok r2 =>
      obtain ⟨sc2, c2⟩ := r2
      simp only [h2] at h
      cases h3 : CreateRenderPass dev sc2 with
      | error e => simp [h3] at h
      | ok r3 =>
        obtain ⟨sc3, c3⟩ := r3
        simp only [h3] at h
        cases h4 : CreateDepthResources dev sc3 with
        | error e => simp [h4] at h
        | ok r4 =>
          obtain ⟨sc4, c4⟩ := r4
          simp only [h4] at h
          cases h5 : CreateFramebuffers dev sc4 with
          | error e => simp [h5] at h
          | ok r5 =>
            obtain ⟨sc5, c5⟩ := r5
            simp only [h5] at h
            by_cases hs : CreateSyncObjects.succeeds framesInFlight dev = true
            · simp only [hs, if_true, Except.ok.injEq, Prod.mk.injEq] at h
              exact ⟨sc1, sc2, sc3, sc4, sc5, c1, c2, c3, c4, c5, rfl, h2, h3, h4, h5,
                h.1.symm, h.2.symm⟩
            · simp [hs] at h


theorem CreateSyncObjects_calls_length (framesInFlight : Nat) (dev : SyncHandles) :
    (CreateSyncObjects.calls framesInFlight dev).length = 3 * framesInFlight := by
  unfold CreateSyncObjects.calls
  induction framesInFlight with
  | zero => simp
  | succ n ih =>
    rw [List.range_succ, List.map_append, List.flatten_append, List.length_append, ih]
    simp
    omega

theorem CreateSyncObjects_calls_kind (framesInFlight : Nat) (dev : SyncHandles) :
    ∀ c ∈ CreateSyncObjects.calls framesInFlight dev,
      ∀ a1 a2 a3 a4 a5, c ≠ CreateCall.vkCreateFramebuffer a1 a2 a3 a4 a5 := by
  intro c hc a1 a2 a3 a4 a5 heq
  subst heq
  simp [CreateSyncObjects.calls, List.mem_flatten] at hc

/-- C14. When construction succeeds, with N = GetImageCount() the number of
images the display subsystem handed out, the image-view, depth-image,
depth-memory, depth-view and framebuffer vectors and the image-in-flight
table have exactly N entries each, every table entry is the null handle,
the framebuffer creations are N consecutive creation calls, after the
creations of the image chain, the views, the render pass and the depth
resources and before the three sync-object creations of every frame slot,
and for every i < N the i-th of them binds exactly the pair (image view i,
depth view i) and its handle is framebuffer i; so GetFrameBuffer(i) and
GetImageView(i) are in range for every i < N. -/
theorem construction_builds_one_of_each_per_image
    (framesInFlight : Nat) (dev : DeviceAnswers) (extent : VkExtent2D) (previous : Nat)
    (sc : SwapChain) (calls : List CreateCall)
    (h : SwapChain.construct framesInFlight dev extent previous = .ok (sc, calls)) :
    sc.GetImageCount = dev.swapchainImages.length ∧
    sc.Constructed framesInFlight ∧
    sc.mCurrentFrame = 0 ∧
    (∀ i, i < sc.GetImageCount → sc.mImagesInFlight[i]? = some VK_NULL_HANDLE) ∧
    ∃ before built after,
      calls = before ++ built ++ after ∧
      (∀ c ∈ before, ∀ a1 a2 a3 a4 a5, c ≠ CreateCall.vkCreateFramebuffer a1 a2 a3 a4 a5) ∧
      (∀ c ∈ after, ∀ a1 a2 a3 a4 a5, c ≠ CreateCall.vkCreateFramebuffer a1 a2 a3 a4 a5) ∧
      after = CreateSyncObjects.calls framesInFlight dev.syncHandles ∧
      after.length = 3 * framesInFlight ∧
      built.length = sc.GetImageCount ∧
      ∀ i, i < sc.GetImageCount →
        ∃ imageView depthView framebuffer,
          sc.mSwapChainImageViews[i]? = some imageView ∧
          sc.mDepthImageViews[i]? = some depthView ∧
          sc.mSwapChainFramebuffers[i]? = some framebuffer ∧
          built[i]? = some (CreateCall.vkCreateFramebuffer sc.mRenderPass
            [imageView, depthView] sc.mSwapChainExtent.width sc.mSwapChainExtent.height
            framebuffer) ∧
          sc.GetFrameBuffer (i : Int) = some framebuffer ∧
          sc.GetImageView (i : Int) = some imageView := by
  unfold SwapChain.construct at h
  obtain ⟨sc1, sc2, sc3, sc4, sc5, c1, c2, c3, c4, c5, h1, h2, h3, h4, h5, hsc, hcalls⟩ :=
    Init_ok h
  obtain ⟨sf, _, e1, ec1⟩ := CreateSwapChain_ok h1
  obtain ⟨views, e2, hviews, hc2⟩ := CreateImageViews_ok h2
  obtain ⟨e3, df3, ec3⟩ := CreateRenderPass_ok h3
  obtain ⟨df, dimages, dmems, dviews, e4, hdi, hdm, hdv, hc4⟩ := CreateDepthResources_ok h4
  obtain ⟨e5, ec5⟩ := CreateFramebuffers_ok h5
  have hN1 : sc1.mSwapChainImages = dev.swapchainImages := by rw [e1]
  have hN4 : sc4.GetImageCount = dev.swapchainImages.length := by
    simp [SwapChain.GetImageCount, e4, e3, e2, hN1]
  have hN3 : sc3.GetImageCount = dev.swapchainImages.length := by
    simp [SwapChain.GetImageCount, e3, e2, hN1]
  have hv4 : sc4.mSwapChainImageViews = views := by rw [e4, e3, e2]
  have hd4 : sc4.mDepthImageViews = dviews := by rw [e4]
  have hvl : views.length = dev.swapchainImages.length := by rw [hviews, hN1]
  rw [hN3] at hdi hdm hdv
  have hN : sc.GetImageCount = dev.swapchainImages.length := by
    rw [hsc, e5]
    simp only [SwapChain.GetImageCount, CreateSyncObjects]
    simpa [SwapChain.GetImageCount] using hN4
  have htab : sc.mImagesInFlight = List.replicate dev.swapchainImages.length VK_NULL_HANDLE := by
    rw [hsc, e5]
    simp only [CreateSyncObjects, vectorResize]
    rw [e4, e3, e2, e1]
    simp [SwapChain.withImages, SwapChain.GetImageCount]
  have hfb : sc.mSwapChainFramebuffers =
      (List.range dev.swapchainImages.length).map (fun i => (dev.createFramebuffer i).2) := by
    rw [hsc, e5]
    simp only [CreateSyncObjects]
    rw [hN4]
  have hv : sc.mSwapChainImageViews = views := by
    rw [hsc, e5]
    simp only [CreateSyncObjects]
    exact hv4
  have hd : sc.mDepthImageViews = dviews := by
    rw [hsc, e5]
    simp only [CreateSyncObjects]
    exact hd4
  have hdimg : sc.mDepthImages = dimages := by
    rw [hsc, e5]
    simp only [CreateSyncObjects]
    rw [e4]
  have hdmem : sc.mDepthImageMemorys = dmems := by
    rw [hsc, e5]
    simp only [CreateSyncObjects]
    rw [e4]
  have hrp : sc.mRenderPass = sc4.mRenderPass := by
    rw [hsc, e5]
    simp only [CreateSyncObjects]
  have hext : sc.mSwapChainExtent = sc4.mSwapChainExtent := by
    rw [hsc, e5]
    simp only [CreateSyncObjects]
  refine ⟨hN, ?_, ?_, ?_, c1 ++ c2 ++ c3 ++ c4, c5,
    CreateSyncObjects.calls framesInFlight dev.syncHandles, hcalls, ?_,
    CreateSyncObjects_calls_kind framesInFlight dev.syncHandles, rfl,
    CreateSyncObjects_calls_length framesInFlight dev.syncHandles, ?_, ?_⟩
  · refine ⟨by rw [hv, hN, hvl], by rw [hdimg, hN, hdi], by rw [hdmem, hN, hdm],
      by rw [hd, hN, hdv], by rw [hfb, hN]; simp, by rw [htab, hN]; simp, ?_, ?_, ?_⟩
    · rw [hsc]; simp [CreateSyncObjects]
    · rw [hsc]; simp [CreateSyncObjects]
    · rw [hsc]; simp [CreateSyncObjects]
  · rw [hsc, e5]
    simp only [CreateSyncObjects]
    rw [e4, e3, e2, e1]
    simp [SwapChain.withImages]
  · intro i hi
    rw [htab]
    rw [hN] at hi
    simp [List.getElem?_replicate, hi]
  · intro c hc a1 a2 a3 a4 a5 heq
    subst heq
    simp only [List.mem_append] at hc
    rcases hc with ((hc | hc) | hc) | hc
    · rw [ec1] at hc
      simp at hc
    · obtain ⟨_, _, _, _, h⟩ := hc2 _ hc
      exact CreateCall.noConfusion h
    · rw [ec3] at hc
      simp at hc
    · rcases hc4 _ hc with ⟨_, _, _, _, h⟩ | ⟨_, _, _, _, _, h⟩ <;>
        exact CreateCall.noConfusion h
  · rw [ec5, hN, hN4]
    simp
  · intro i hi
    rw [hN] at hi
    obtain ⟨imageView, hiv⟩ := getElem?_some_of_lt views i (hvl ▸ hi)
    obtain ⟨depthView, hdvw⟩ := getElem?_some_of_lt dviews i (hdv ▸ hi)
    have hfbi : sc.mSwapChainFramebuffers[i]? = some (dev.createFramebuffer i).2 := by
      rw [hfb]
      simp [List.getElem?_map, List.getElem?_range hi]
    refine ⟨imageView, depthView, (dev.createFramebuffer i).2, by rw [hv]; exact hiv,
      by rw [hd]; exact hdvw, hfbi, ?_, ?_, ?_⟩
    · rw [ec5, hN4, hrp, hext, hv4, hd4]
      simp [List.getElem?_map, List.getElem?_range hi, List.getD_eq_getElem?_getD, hiv, hdvw]
    · simp [SwapChain.GetFrameBuffer, hfbi]
    · simp [SwapChain.GetImageView, hv, hiv]


/-- Witness of C14: the chain the sample device builds over two images. -/
theorem construction_builds_one_of_each_per_image_witness :
    SwapChain.construct 2 sampleDevice ⟨800, 600⟩ VK_NULL_HANDLE
      = .ok (sampleConstructed.1, sampleConstructed.2) ∧
    sampleConstructed.1.GetImageCount = 2 ∧
    sampleConstructed.1.Constructed 2 ∧
    sampleConstructed.1.mImagesInFlight = [VK_NULL_HANDLE, VK_NULL_HANDLE] ∧
    sampleConstructed.2.length = 16 ∧
    (sampleConstructed.2.drop 8).take 2 =
      [CreateCall.vkCreateFramebuffer 40 [10, 20] 800 600 30,
       CreateCall.vkCreateFramebuffer 40 [11, 21] 800 600 31] ∧
    sampleConstructed.2.drop 10 =
      [CreateCall.vkCreateSemaphore 100, CreateCall.vkCreateSemaphore 200,
       CreateCall.vkCreateFence VK_FENCE_CREATE_SIGNALED_BIT 1,
       CreateCall.vkCreateSemaphore 101, CreateCall.vkCreateSemaphore 201,
       CreateCall.vkCreateFence VK_FENCE_CREATE_SIGNALED_BIT 2] ∧
    (∀ i, i < sampleConstructed.1.GetImageCount →
      sampleConstructed.1.mImagesInFlight[i]? = some VK_NULL_HANDLE) :=
  have h := construction_builds_one_of_each_per_image 2 sampleDevice ⟨800, 600⟩ VK_NULL_HANDLE
    sampleConstructed.1 sampleConstructed.2 rfl
  ⟨rfl, h.1, h.2.1, rfl, rfl, rfl, rfl, h.2.2.2.1⟩

end mt
